import Mathlib

/-!
# HHChannelBase and ChemMesh: gate integration, power assignment, solver hand-off, junctions

A shallow embedding of `src/biophysics/HHChannelBase.cpp` and of the junction functions
of `src/mesh/ChemMesh.cpp`.

The C++ `double` is read as an ordered field `α` (the statements are about real
arithmetic and are proved at `α = ℝ`); the C library routines `exp` and `log`
are passed in as functions, so that every definition stays executable at a
computable field such as `ℚ`.  Where the rounding of the `double` operations decides a
statement, the integrator is also given with each operation rounded to binary64.  The helper `doubleEq` is declared outside the
embedded sources and is passed in as a function `deq`.
-/

/-! ## Data model -/

/-- The targets of a `PFDD` function pointer (`double (*)(double, double)`): the five
static routines `selectPower` can return (HHChannelBase.cpp:335-348). -/
inductive PFDD where
  | power1
  | power2
  | power3
  | power4
  | powerN
  deriving DecidableEq, Repr

/-- Observable effects of the member functions, in program order: lines written to
`cout` and dispatches of the virtual gate hooks, whose overriding bodies live in the
derived classes. -/
inductive Effect (α : Type) where
  /-- The line "Warning: HHChannelBase::setPower: Cannot be negative" (line 153). -/
  | coutCannotBeNegative
  /-- The line "Warning: HHChannelBase::setPower: unlikely to be > 5" (line 157). -/
  | coutUnlikelyGt5
  /-- The line "Error: HHChannel2D::set<gateType>power: Cannot use negative power:
  <power>" (lines 353-354). -/
  | coutNegativePower (gateType : String) (power : α)
  /-- One invocation `createGate(e, gateType)`, which forwards to the virtual
  `vCreateGate(e, gateType)` (lines 180-182, 361). -/
  | createGate (gateType : String)
  /-- One invocation of the virtual `destroyGate(e, gateType)` (lines 184-187, 363). -/
  | destroyGate (gateType : String)
  deriving DecidableEq, Repr

/-- The `double` data members of the class, as possible targets of the
`double *assignee` argument of `setGatePower`. -/
inductive DoubleField where
  | X_
  | Y_
  | Z_
  | g_
  | Xpower_
  | Ypower_
  | Zpower_
  deriving DecidableEq, Repr

/-- The data members of `HHChannelBase` (constructor, HHChannelBase.cpp:132-147, and the
stored evaluators assigned at lines 377-386), together with the trace of effects issued
so far. -/
structure HHChannelBase (α : Type) where
  instant_ : Int
  X_ : α
  Y_ : α
  Z_ : α
  xInited_ : Bool
  yInited_ : Bool
  zInited_ : Bool
  g_ : α
  Xpower_ : α
  Ypower_ : α
  Zpower_ : α
  useConcentration_ : Int
  takeXpower_ : PFDD
  takeYpower_ : PFDD
  takeZpower_ : PFDD
  trace : List (Effect α)
  deriving DecidableEq, Repr

namespace HHChannelBase

/-! ## Constants -/

section Constants

variable (α : Type) [LinearOrderedField α]

/-- The constant `HHChannelBase::EPSILON = 1.0e-10` (HHChannelBase.cpp:17). -/
def EPSILON : α := 1 / 10 ^ 10

end Constants

section Code

variable {α : Type} [LinearOrderedField α]

/-- The constructor `HHChannelBase::HHChannelBase()` (lines 132-147). The three stored
evaluators are not initialised by it and are taken as given. -/
def ctor (takeX takeY takeZ : PFDD) : HHChannelBase α :=
  { instant_ := 0, X_ := 0, Y_ := 0, Z_ := 0,
    xInited_ := false, yInited_ := false, zInited_ := false,
    g_ := 0, Xpower_ := 0, Ypower_ := 0, Zpower_ := 0,
    useConcentration_ := 0,
    takeXpower_ := takeX, takeYpower_ := takeY, takeZpower_ := takeZ,
    trace := [] }

/-- The function `HHChannelBase::integrate` (HHChannelBase.cpp:268-274) in the exact
arithmetic of the field `α`; `exp` is the C library exponential. Its reading with every
operation rounded to a `double` is `integrateBinary64`. -/
def integrate (exp : α → α) (state dt A B : α) : α :=
  if B > EPSILON α then
    let x := exp (-B * dt)
    state * x + (A / B) * (1 - x)
  else
    state + A * dt

/-- The free function `checkPower` (lines 151-161): the verdict and the output stream
after the call. -/
def checkPower (power : α) (out : List (Effect α)) : Bool × List (Effect α) :=
  if power < 0 then
    (false, out ++ [Effect.coutCannotBeNegative])
  else if power > 5 then
    (false, out ++ [Effect.coutUnlikelyGt5])
  else
    (true, out)

/-- The function `HHChannelBase::createGate` (lines 180-182): forwards to the virtual
`vCreateGate`; the invocation is recorded. -/
def createGate (s : HHChannelBase α) (gateType : String) : HHChannelBase α :=
  { s with trace := s.trace ++ [Effect.createGate gateType] }

/-- The virtual function `HHChannelBase::destroyGate` (lines 184-187), overridden in the
derived classes; the invocation is recorded. -/
def destroyGate (s : HHChannelBase α) (gateType : String) : HHChannelBase α :=
  { s with trace := s.trace ++ [Effect.destroyGate gateType] }

/-- The getter `getXpower` (line 199). -/
def getXpower (s : HHChannelBase α) : α := s.Xpower_

/-- The getter `getYpower` (line 201). -/
def getYpower (s : HHChannelBase α) : α := s.Ypower_

/-- The getter `getZpower` (line 203). -/
def getZpower (s : HHChannelBase α) : α := s.Zpower_

/-- The getter `getUseConcentration` (lines 223-225). -/
def getUseConcentration (s : HHChannelBase α) : Int := s.useConcentration_

/-- Reading through a `double *` that points at a data member. -/
def deref (s : HHChannelBase α) : DoubleField → α
  | .X_ => s.X_
  | .Y_ => s.Y_
  | .Z_ => s.Z_
  | .g_ => s.g_
  | .Xpower_ => s.Xpower_
  | .Ypower_ => s.Ypower_
  | .Zpower_ => s.Zpower_

/-- Writing through a `double *` that points at a data member. -/
def assign (s : HHChannelBase α) (v : α) : DoubleField → HHChannelBase α
  | .X_ => { s with X_ := v }
  | .Y_ => { s with Y_ := v }
  | .Z_ => { s with Z_ := v }
  | .g_ => { s with g_ := v }
  | .Xpower_ => { s with Xpower_ := v }
  | .Ypower_ => { s with Ypower_ := v }
  | .Zpower_ => { s with Zpower_ := v }

/-- The function `HHChannelBase::powerN` (lines 330-333); `exp` and `log` are the C
library routines. -/
def powerN (exp log : α → α) (x p : α) : α :=
  if x > 0 then exp (p * log x) else 0

/-- Modelled from the spec: `power1` is declared in HHChannelBase.h, which is not among
the embedded sources; the spec gives "1 → identity". -/
def power1 (x _p : α) : α := x

/-- Modelled from the spec: `power2` is declared in HHChannelBase.h, which is not among
the embedded sources; the spec gives "2,3,4 → direct multiplication chains". -/
def power2 (x _p : α) : α := x * x

/-- Modelled from the spec: `power3` is declared in HHChannelBase.h, which is not among
the embedded sources; the spec gives "2,3,4 → direct multiplication chains". -/
def power3 (x _p : α) : α := x * x * x

/-- Modelled from the spec: `power4` is declared in HHChannelBase.h, which is not among
the embedded sources; the spec gives "2,3,4 → direct multiplication chains". -/
def power4 (x _p : α) : α := x * x * x * x

/-- Calling through a `PFDD` function pointer. -/
def call (exp log : α → α) : PFDD → α → α → α
  | .power1 => power1
  | .power2 => power2
  | .power3 => power3
  | .power4 => power4
  | .powerN => powerN exp log

/-- The function `HHChannelBase::selectPower` (lines 335-348); `deq` is `doubleEq`. -/
def selectPower (deq : α → α → Bool) (power : α) : PFDD :=
  if deq power 0 then PFDD.powerN
  else if deq power 1 then PFDD.power1
  else if deq power 2 then PFDD.power2
  else if deq power 3 then PFDD.power3
  else if deq power 4 then PFDD.power4
  else PFDD.powerN

/-- The function `HHChannelBase::setGatePower` (lines 350-368): the returned flag and the
object after the call; `deq` is `doubleEq`. -/
def setGatePower (deq : α → α → Bool) (s : HHChannelBase α) (power : α)
    (assignee : DoubleField) (gateType : String) : Bool × HHChannelBase α :=
  if power < 0 then
    (false, { s with trace := s.trace ++ [Effect.coutNegativePower gateType power] })
  else if deq power (s.deref assignee) then
    (false, s)
  else
    let s1 :=
      if deq (s.deref assignee) 0 && decide (power > 0) then createGate s gateType
      else if deq power 0 then destroyGate s gateType
      else s
    (true, s1.assign power assignee)

/-- The function `HHChannelBase::vSetXpower` (lines 376-378). -/
def vSetXpower (deq : α → α → Bool) (s : HHChannelBase α) (power : α) : HHChannelBase α :=
  let r := setGatePower deq s power DoubleField.Xpower_ "X"
  if r.1 then { r.2 with takeXpower_ := selectPower deq power } else r.2

/-- The function `HHChannelBase::vSetYpower` (lines 380-382). -/
def vSetYpower (deq : α → α → Bool) (s : HHChannelBase α) (power : α) : HHChannelBase α :=
  let r := setGatePower deq s power DoubleField.Ypower_ "Y"
  if r.1 then { r.2 with takeYpower_ := selectPower deq power } else r.2

/-- The function `HHChannelBase::vSetZpower` (lines 384-389). -/
def vSetZpower (deq : α → α → Bool) (s : HHChannelBase α) (power : α) : HHChannelBase α :=
  let r := setGatePower deq s power DoubleField.Zpower_ "Z"
  if r.1 then { r.2 with takeZpower_ := selectPower deq power, useConcentration_ := 1 }
  else r.2

/-- The function `HHChannelBase::setXpower` (lines 168-170). -/
def setXpower (deq : α → α → Bool) (s : HHChannelBase α) (power : α) : HHChannelBase α :=
  let c := checkPower power s.trace
  let s1 := { s with trace := c.2 }
  if c.1 then vSetXpower deq s1 power else s1

/-- The function `HHChannelBase::setYpower` (lines 172-174). -/
def setYpower (deq : α → α → Bool) (s : HHChannelBase α) (power : α) : HHChannelBase α :=
  let c := checkPower power s.trace
  let s1 := { s with trace := c.2 }
  if c.1 then vSetYpower deq s1 power else s1

/-- The function `HHChannelBase::setZpower` (lines 176-178). -/
def setZpower (deq : α → α → Bool) (s : HHChannelBase α) (power : α) : HHChannelBase α :=
  let c := checkPower power s.trace
  let s1 := { s with trace := c.2 }
  if c.1 then vSetZpower deq s1 power else s1

/-- The power `x^p` for a natural exponent, computed by repeated multiplication (the
reference the fast evaluators are compared with). -/
def repeatedMul (x : α) : Nat → α
  | 0 => 1
  | n + 1 => x * repeatedMul x n

/-- Modelled from the spec: `doubleEq` is declared outside the embedded sources; the
spec reads it as exact comparison ("if the existing power was exactly 0", "if the new
power is exactly 0"). It instantiates the argument `deq` at concrete inputs. -/
def doubleEq (x y : α) : Bool := decide (x = y)

end Code

/-! ## The integrator in binary64 arithmetic -/

section Binary64

/-- Rounding of a rational to the nearest integer, ties to the even one. -/
def roundHalfEven (r : ℚ) : ℤ :=
  let f := ⌊r⌋
  if r - f < 1 / 2 then f
  else if 1 / 2 < r - f then f + 1
  else if f % 2 = 0 then f
  else f + 1

/-- The binary64 (`double`) number nearest to a rational, ties to even: 53 significant
bits, the default rounding of every `double` operation. The exponent is not bounded, so
overflow and subnormal numbers are outside this reading. -/
def roundBinary64 (q : ℚ) : ℚ :=
  if q = 0 then 0
  else
    let e := Int.log 2 |q| - 52
    (roundHalfEven (q / 2 ^ e) : ℚ) * 2 ^ e

/-- The constant `HHChannelBase::EPSILON = 1.0e-10` (HHChannelBase.cpp:17) as the `double`
it is stored in. -/
def EPSILON64 : ℚ := roundBinary64 (EPSILON ℚ)

/-- The function `HHChannelBase::integrate` (HHChannelBase.cpp:268-274) on `double`
values: the same expression as `integrate`, each operation rounded to binary64; `exp` is
the value the C library returns. The arguments are binary64 numbers. -/
def integrateBinary64 (exp : ℚ → ℚ) (state dt A B : ℚ) : ℚ :=
  if B > EPSILON64 then
    let x := exp (roundBinary64 (-B * dt))
    roundBinary64 (roundBinary64 (state * x)
      + roundBinary64 (roundBinary64 (A / B) * roundBinary64 (1 - x)))
  else
    roundBinary64 (state + roundBinary64 (A * dt))

end Binary64

/-! ## Solver hand-off -/

end HHChannelBase

/-- One channel object as `zombify` sees it: the `HHChannelBase` members together with
the two `ChanBase` parameters it reaches through `vGetGbar`/`vSetGbar` and
`vGetEk`/`vSetEk`. -/
structure Channel (α : Type) where
  Gbar_ : α
  Ek_ : α
  hh : HHChannelBase α

/-- The part of an `Element` that `zombify` uses: the class (`cinfo()`), the first local
index (`localDataStart()`) and the local objects (`numLocalData()` is their number). -/
structure Element (α : Type) where
  cinfo : String
  localDataStart : Nat
  data : List (Channel α)

namespace HHChannelBase

section Zombify

variable {α : Type} [LinearOrderedField α]

/-- Modelled from the spec: the virtual getter `vGetGbar` is declared in ChanBase, which
is not among the embedded sources; it reads the "maximal conductance". -/
def vGetGbar (hb : Channel α) : α := hb.Gbar_

/-- Modelled from the spec: the virtual getter `vGetEk` is declared in ChanBase, which is
not among the embedded sources; it reads the "reversal potential". -/
def vGetEk (hb : Channel α) : α := hb.Ek_

/-- Modelled from the spec: the virtual setter `vSetGbar` is declared in ChanBase, which
is not among the embedded sources; a "normal setter" of the maximal conductance. -/
def vSetGbar (hb : Channel α) (Gbar : α) : Channel α := { hb with Gbar_ := Gbar }

/-- Modelled from the spec: the virtual setter `vSetEk` is declared in ChanBase, which is
not among the embedded sources; a "normal setter" of the reversal potential. -/
def vSetEk (hb : Channel α) (Ek : α) : Channel α := { hb with Ek_ := Ek }

/-- The function `HHChannelBase::vSetSolver` (line 393): a dummy in this class. -/
def vSetSolver (hb : Channel α) (_hsolve : Nat) : Channel α := hb

/-- The first loop of `zombify` (lines 403-417): the flat buffer `chandata`, six values
per object, the `int` flag converted to `double`. -/
def snapshot : List (Channel α) → List α
  | [] => []
  | hb :: rest =>
      vGetGbar hb :: vGetEk hb :: getXpower hb.hh :: getYpower hb.hh :: getZpower hb.hh
        :: ((getUseConcentration hb.hh : Int) : α) :: snapshot rest

/-- The body of the second loop of `zombify` (lines 421-432) for one object and its six
buffered values: the sixth is read by nobody, the assignment of `useConcentration` being
commented out (lines 429-431). The setters are the ones of this class. -/
def replayOne (deq : α → α → Bool) (hsolve : Nat) (hb : Channel α)
    (gbar ek xpower ypower zpower _useConc : α) : Channel α :=
  let hb0 := vSetSolver hb hsolve
  let hb1 := vSetGbar hb0 gbar
  let hb2 := vSetEk hb1 ek
  let hb3 := { hb2 with hh := vSetXpower deq hb2.hh xpower }
  let hb4 := { hb3 with hh := vSetYpower deq hb3.hh ypower }
  { hb4 with hh := vSetZpower deq hb4.hh zpower }

/-- The second loop of `zombify` (lines 419-433): the iterator `j` walks the buffer in
steps of six; objects beyond the buffered ones are not visited. -/
def replay (deq : α → α → Bool) (hsolve : Nat) : List (Channel α) → List α → List (Channel α)
  | hb :: rest, gbar :: ek :: xpower :: ypower :: zpower :: useConc :: js =>
      replayOne deq hsolve hb gbar ek xpower ypower zpower useConc
        :: replay deq hsolve rest js
  | hbs, _ => hbs

/-- The function `HHChannelBase::zombify` (lines 395-434). `zombieSwap zClass orig` is
`Element::zombieSwap`, declared outside the embedded sources. -/
def zombify (deq : α → α → Bool) (zombieSwap : String → Element α → Element α)
    (orig : Element α) (zClass : String) (hsolve : Nat) : Element α :=
  if orig.cinfo = zClass then orig
  else
    let num := orig.data.length
    if num = 0 then orig
    else
      let chandata := snapshot orig.data
      let swapped := zombieSwap zClass orig
      { swapped with data := replay deq hsolve swapped.data chandata }

/-- Modelled from the spec: `Element::zombieSwap` is not among the embedded sources; the
spec calls it "an in-place type swap of the underlying storage to the solver-backed
representation", after which the parameters have to be replayed: the element takes the
target class and holds as many objects as before, each freshly constructed. -/
def zombieSwapFresh (zClass : String) (orig : Element α) : Element α :=
  { orig with
    cinfo := zClass
    data := orig.data.map
      (fun _ => { Gbar_ := 0, Ek_ := 0, hh := ctor PFDD.powerN PFDD.powerN PFDD.powerN }) }

/-- The stored X evaluator is the one `selectPower` gives for the stored X power. -/
def xEvaluatorSelected (deq : α → α → Bool) (s : HHChannelBase α) : Prop :=
  s.takeXpower_ = selectPower deq s.Xpower_

/-- The stored Y evaluator is the one `selectPower` gives for the stored Y power. -/
def yEvaluatorSelected (deq : α → α → Bool) (s : HHChannelBase α) : Prop :=
  s.takeYpower_ = selectPower deq s.Ypower_

/-- The stored Z evaluator is the one `selectPower` gives for the stored Z power. -/
def zEvaluatorSelected (deq : α → α → Bool) (s : HHChannelBase α) : Prop :=
  s.takeZpower_ = selectPower deq s.Zpower_

instance (deq : α → α → Bool) (s : HHChannelBase α) : Decidable (xEvaluatorSelected deq s) :=
  inferInstanceAs (Decidable (s.takeXpower_ = selectPower deq s.Xpower_))

instance (deq : α → α → Bool) (s : HHChannelBase α) : Decidable (yEvaluatorSelected deq s) :=
  inferInstanceAs (Decidable (s.takeYpower_ = selectPower deq s.Ypower_))

instance (deq : α → α → Bool) (s : HHChannelBase α) : Decidable (zEvaluatorSelected deq s) :=
  inferInstanceAs (Decidable (s.takeZpower_ = selectPower deq s.Zpower_))

/-- The five buffered parameters that `zombify` replays. -/
def replayedParams (hb : Channel α) : α × α × α × α × α :=
  (vGetGbar hb, vGetEk hb, getXpower hb.hh, getYpower hb.hh, getZpower hb.hh)

end Zombify

end HHChannelBase

/-! ## Mesh junctions -/

/-- The record `VoxelJunction`: an index in each of the two meshes and the coupling
coefficient. -/
structure VoxelJunction (α : Type) where
  first : Nat
  second : Nat
  diffScale : α

/-- Virtual mesh functions a `ChemMesh` object has received, in program order. -/
inductive MeshCall (α : Type) where
  | matchMeshEntries
  | extendStencil (vj : List (VoxelJunction α))

/-- The part of a `ChemMesh` that junction building touches: the stencil, read as the
spec's adjacency map entry → (neighbour entry, coefficient) list, and the virtual calls
received so far. -/
structure ChemMesh (α : Type) where
  size_ : α
  method_ : String
  stencil : Nat → List (Nat × α)
  calls : List (MeshCall α)

namespace ChemMesh

section MeshCode

variable {α : Type}

/-- Modelled from the spec: the virtual `matchMeshEntries` is implemented by the mesh
subclasses, which are not among the embedded sources; it is the "geometric matching" of
the boundary entries of this mesh with the other one, whose outcome `matcher` supplies. -/
def matchMeshEntries
    (matcher : ChemMesh α → ChemMesh α → List (VoxelJunction α) → List (VoxelJunction α))
    (self other : ChemMesh α) (ret : List (VoxelJunction α)) :
    ChemMesh α × List (VoxelJunction α) :=
  ({ self with calls := self.calls ++ [MeshCall.matchMeshEntries] }, matcher self other ret)

/-- One junction added to a stencil: the entry `first` gains the neighbour `second` with
the coefficient of the junction. -/
def addNeighbour (stencil : Nat → List (Nat × α)) (j : VoxelJunction α) :
    Nat → List (Nat × α) :=
  fun i => if i = j.first then stencil i ++ [(j.second, j.diffScale)] else stencil i

/-- Modelled from the spec: the virtual `extendStencil` is implemented by the mesh
subclasses, which are not among the embedded sources; it "extends meshA's stencil with
these cross-mesh neighbor entries". -/
def extendStencil (self _other : ChemMesh α) (vj : List (VoxelJunction α)) : ChemMesh α :=
  { self with
    stencil := vj.foldl addNeighbour self.stencil
    calls := self.calls ++ [MeshCall.extendStencil vj] }

/-- The function `ChemMesh::buildJunction` (ChemMesh.cpp:334-346): this mesh, the other
mesh and the junction list after the call. The symmetric half is commented out in the
source (lines 338-345). -/
def buildJunction
    (matcher : ChemMesh α → ChemMesh α → List (VoxelJunction α) → List (VoxelJunction α))
    (self other : ChemMesh α) (ret : List (VoxelJunction α)) :
    ChemMesh α × ChemMesh α × List (VoxelJunction α) :=
  let m := matchMeshEntries matcher self other ret
  let self1 := extendStencil m.1 other m.2
  (self1, other, m.2)

/-- The function `ChemMesh::flipRet` (ChemMesh.cpp:348-356): the loop over the vector,
exchanging `first` and `second` of each element through `temp`. -/
def flipRet : List (VoxelJunction α) → List (VoxelJunction α)
  | [] => []
  | i :: rest =>
      let temp := i.first
      { i with first := i.second, second := temp } :: flipRet rest

end MeshCode

end ChemMesh

namespace HHChannelBase

/-! ## Integrator: helper lemmas -/

theorem EPSILON_pos : (0 : ℝ) < EPSILON ℝ := by
  unfold EPSILON
  positivity

theorem integrate_exp_branch (state dt A B : ℝ) (hB : EPSILON ℝ < B) :
    integrate Real.exp state dt A B
      = state * Real.exp (-B * dt) + (A / B) * (1 - Real.exp (-B * dt)) := by
  simp [integrate, hB]

theorem integrate_euler_branch (state dt A B : ℝ) (hB : B ≤ EPSILON ℝ) :
    integrate Real.exp state dt A B = state + A * dt := by
  simp [integrate, not_lt.mpr hB]

/-! ## Integrator: claims -/

/-- C1: with EPSILON = 1e-10, `integrate state dt A B` equals
`state*exp(-B*dt) + (A/B)*(1 - exp(-B*dt))` when `B > EPSILON`, and equals exactly
`state + A*dt` when `B <= EPSILON`. -/
theorem integrate_closed_form (state dt A B : ℝ) :
    EPSILON ℝ = 1e-10 ∧
    (B > EPSILON ℝ →
      integrate Real.exp state dt A B
        = state * Real.exp (-B * dt) + (A / B) * (1 - Real.exp (-B * dt))) ∧
    (B ≤ EPSILON ℝ → integrate Real.exp state dt A B = state + A * dt) := by
  refine ⟨?_, integrate_exp_branch state dt A B, integrate_euler_branch state dt A B⟩
  unfold EPSILON
  norm_num

/-- Witness for C1: the Euler branch at `B = 0` and the exponential branch at `B = 1`,
`dt = 0`. -/
theorem integrate_closed_form_witness :
    integrate Real.exp 3 2 5 0 = 13 ∧ integrate Real.exp 3 0 5 1 = 3 := by
  have h0 := (integrate_closed_form 3 2 5 0).2.2 EPSILON_pos.le
  have h1 := (integrate_closed_form 3 0 5 1).2.1 (by unfold EPSILON; norm_num)
  refine ⟨?_, ?_⟩
  · rw [h0]; norm_num
  · rw [h1]; simp

/-- C2 (amended): in exact real arithmetic, for `B > EPSILON` and `dt >= 0` the result of
`integrate` lies between `state` and `A/B`: `min state (A/B) <= result <= max state (A/B)`. -/
theorem integrate_between (state dt A B : ℝ) (hB : B > EPSILON ℝ) (hdt : 0 ≤ dt) :
    min state (A / B) ≤ integrate Real.exp state dt A B ∧
    integrate Real.exp state dt A B ≤ max state (A / B) := by
  have hBpos : 0 < B := lt_trans EPSILON_pos hB
  rw [integrate_exp_branch state dt A B hB]
  have hx0 : 0 < Real.exp (-B * dt) := Real.exp_pos _
  have hx1 : Real.exp (-B * dt) ≤ 1 := by
    rw [Real.exp_le_one_iff]
    nlinarith
  generalize Real.exp (-B * dt) = x at hx0 hx1
  generalize A / B = q
  rcases le_total state q with h | h
  · rw [min_eq_left h, max_eq_right h]
    constructor <;> nlinarith
  · rw [min_eq_right h, max_eq_left h]
    constructor <;> nlinarith

/-- Witness for C2 (amended) at `state = 0`, `dt = 1`, `A = 1`, `B = 2`. -/
theorem integrate_between_witness :
    min (0 : ℝ) (1 / 2) ≤ integrate Real.exp 0 1 1 2 ∧
    integrate Real.exp 0 1 1 2 ≤ max (0 : ℝ) (1 / 2) :=
  integrate_between 0 1 1 2 (by unfold EPSILON; norm_num) (by norm_num)

/-- C3: for `B > EPSILON` the map `t ↦ integrate state t A B` solves
`d(state)/dt = A - B*state` with initial value `state`: its value at `0` is `state` and
its derivative at every `t` is `A - B * integrate state t A B`. -/
theorem integrate_solves_ode (state A B : ℝ) (hB : B > EPSILON ℝ) :
    integrate Real.exp state 0 A B = state ∧
    ∀ t : ℝ, HasDerivAt (fun u => integrate Real.exp state u A B)
      (A - B * integrate Real.exp state t A B) t := by
  have hBpos : 0 < B := lt_trans EPSILON_pos hB
  have hBne : B ≠ 0 := ne_of_gt hBpos
  constructor
  · rw [integrate_exp_branch state 0 A B hB]
    simp
  · intro t
    have hfun : (fun u => integrate Real.exp state u A B)
        = fun u => state * Real.exp (-B * u) + (A / B) * (1 - Real.exp (-B * u)) := by
      funext u
      exact integrate_exp_branch state u A B hB
    rw [hfun, integrate_exp_branch state t A B hB]
    have hlin : HasDerivAt (fun u : ℝ => -B * u) (-B) t := by
      simpa using (hasDerivAt_id t).const_mul (-B)
    have hexp : HasDerivAt (fun u : ℝ => Real.exp (-B * u)) (Real.exp (-B * t) * (-B)) t :=
      hlin.exp
    have h1 := hexp.const_mul state
    have h2 := ((hasDerivAt_const t (1 : ℝ)).sub hexp).const_mul (A / B)
    have h3 := h1.add h2
    convert h3 using 1
    field_simp
    ring

/-- Witness for C3 at `state = 0`, `A = 1`, `B = 2`. -/
theorem integrate_solves_ode_witness :
    integrate Real.exp 0 0 1 2 = 0 ∧
    ∀ t : ℝ, HasDerivAt (fun u => integrate Real.exp 0 u 1 2)
      (1 - 2 * integrate Real.exp 0 t 1 2) t :=
  integrate_solves_ode 0 1 2 (by unfold EPSILON; norm_num)

/-- C4: for `B > EPSILON`, `integrate state dt A B` converges to `A/B` as `dt` tends to
infinity. -/
theorem integrate_tendsto_steady_state (state A B : ℝ) (hB : B > EPSILON ℝ) :
    Filter.Tendsto (fun dt => integrate Real.exp state dt A B) Filter.atTop (nhds (A / B)) := by
  have hBpos : 0 < B := lt_trans EPSILON_pos hB
  have hfun : (fun dt => integrate Real.exp state dt A B)
      = fun dt => state * Real.exp (-B * dt) + (A / B) * (1 - Real.exp (-B * dt)) := by
    funext dt
    exact integrate_exp_branch state dt A B hB
  rw [hfun]
  have hlin : Filter.Tendsto (fun dt : ℝ => -B * dt) Filter.atTop Filter.atBot := by
    have := Filter.tendsto_id.const_mul_atTop_of_neg (neg_lt_zero.mpr hBpos)
    simpa using this
  have hexp : Filter.Tendsto (fun dt : ℝ => Real.exp (-B * dt)) Filter.atTop (nhds 0) :=
    Real.tendsto_exp_atBot.comp hlin
  have h1 := hexp.const_mul state
  have hone : Filter.Tendsto (fun _ : ℝ => (1 : ℝ)) Filter.atTop (nhds 1) := tendsto_const_nhds
  have h2 := (hone.sub hexp).const_mul (A / B)
  have h3 := h1.add h2
  simpa using h3

/-- Witness for C4 at `state = 0`, `A = 1`, `B = 2`. -/
theorem integrate_tendsto_steady_state_witness :
    Filter.Tendsto (fun dt => integrate Real.exp 0 dt 1 2) Filter.atTop (nhds ((1 : ℝ) / 2)) :=
  integrate_tendsto_steady_state 0 1 2 (by unfold EPSILON; norm_num)

/-! ## Power assignment: helper lemmas -/

section PowerLemmas

variable {α : Type} [LinearOrderedField α]

theorem checkPower_neg (power : α) (out : List (Effect α)) (h : power < 0) :
    checkPower power out = (false, out ++ [Effect.coutCannotBeNegative]) := by
  simp [checkPower, h]

theorem checkPower_gt5 (power : α) (out : List (Effect α)) (h : 5 < power) :
    checkPower power out = (false, out ++ [Effect.coutUnlikelyGt5]) := by
  have h0 : ¬ power < 0 := not_lt.mpr (le_trans (by norm_num) h.le)
  simp [checkPower, h, h0]

theorem setGatePower_neg (deq : α → α → Bool) (s : HHChannelBase α) (power : α)
    (a : DoubleField) (g : String) (h : power < 0) :
    setGatePower deq s power a g
      = (false, { s with trace := s.trace ++ [Effect.coutNegativePower g power] }) := by
  simp [setGatePower, h]

theorem setGatePower_same (deq : α → α → Bool) (s : HHChannelBase α) (power : α)
    (a : DoubleField) (g : String) (h : 0 ≤ power) (hsame : deq power (s.deref a) = true) :
    setGatePower deq s power a g = (false, s) := by
  simp [setGatePower, not_lt.mpr h, hsame]

theorem setGatePower_changed (deq : α → α → Bool) (s : HHChannelBase α) (power : α)
    (a : DoubleField) (g : String) (h : 0 ≤ power) (hdiff : deq power (s.deref a) = false) :
    (setGatePower deq s power a g).1 = true := by
  simp [setGatePower, not_lt.mpr h, hdiff]

end PowerLemmas

/-! ## Power assignment: claims -/

section PowerClaims

variable {α : Type} [LinearOrderedField α]

/-- C5 fails as stated: on a freshly constructed channel, `setXpower` (likewise
`setYpower`, `setZpower`) with power 6 > 5 leaves the stored power at 0, so the getter
does not return the new power. -/
theorem setPower_gt5_not_applied :
    (6 : ℚ) > 5 ∧
    getXpower (setXpower doubleEq (ctor PFDD.powerN PFDD.powerN PFDD.powerN) (6 : ℚ)) = 0 ∧
    getYpower (setYpower doubleEq (ctor PFDD.powerN PFDD.powerN PFDD.powerN) (6 : ℚ)) = 0 ∧
    getZpower (setZpower doubleEq (ctor PFDD.powerN PFDD.powerN PFDD.powerN) (6 : ℚ)) = 0 := by
  refine ⟨by norm_num, ?_, ?_, ?_⟩
  · simp [setXpower, checkPower_gt5 (6 : ℚ) _ (by norm_num), getXpower, ctor]
  · simp [setYpower, checkPower_gt5 (6 : ℚ) _ (by norm_num), getYpower, ctor]
  · simp [setZpower, checkPower_gt5 (6 : ℚ) _ (by norm_num), getZpower, ctor]

/-- C5 (amended): for every channel and every power > 5, `setXpower` (likewise
`setYpower`, `setZpower`) writes the warning and refuses the assignment: the object is
unchanged apart from the warning line, and the getter returns the prior power. -/
theorem setPower_gt5_refused (deq : α → α → Bool) (s : HHChannelBase α) (power : α)
    (h : power > 5) :
    setXpower deq s power = { s with trace := s.trace ++ [Effect.coutUnlikelyGt5] } ∧
    setYpower deq s power = { s with trace := s.trace ++ [Effect.coutUnlikelyGt5] } ∧
    setZpower deq s power = { s with trace := s.trace ++ [Effect.coutUnlikelyGt5] } ∧
    getXpower (setXpower deq s power) = getXpower s ∧
    getYpower (setYpower deq s power) = getYpower s ∧
    getZpower (setZpower deq s power) = getZpower s := by
  have hx : setXpower deq s power
      = { s with trace := s.trace ++ [Effect.coutUnlikelyGt5] } := by
    simp [setXpower, checkPower_gt5 power _ h]
  have hy : setYpower deq s power
      = { s with trace := s.trace ++ [Effect.coutUnlikelyGt5] } := by
    simp [setYpower, checkPower_gt5 power _ h]
  have hz : setZpower deq s power
      = { s with trace := s.trace ++ [Effect.coutUnlikelyGt5] } := by
    simp [setZpower, checkPower_gt5 power _ h]
  refine ⟨hx, hy, hz, ?_, ?_, ?_⟩
  · rw [hx]; rfl
  · rw [hy]; rfl
  · rw [hz]; rfl

/-- Witness for C5 (amended): power 6 on a freshly constructed channel. -/
theorem setPower_gt5_refused_witness :
    getXpower (setXpower doubleEq (ctor PFDD.powerN PFDD.powerN PFDD.powerN) (6 : ℚ))
      = getXpower (ctor PFDD.powerN PFDD.powerN PFDD.powerN : HHChannelBase ℚ) :=
  (setPower_gt5_refused doubleEq (ctor PFDD.powerN PFDD.powerN PFDD.powerN) (6 : ℚ)
    (by norm_num)).2.2.2.1

/-- C6: for every channel state and every power < 0, the assignment is refused through
`setXpower`/`setYpower`/`setZpower`, through `vSetXpower`/`vSetYpower`/`vSetZpower` and
through `setGatePower`: the object is unchanged apart from one diagnostic line on `cout`
(so the stored powers, the stored evaluators, `useConcentration` and every other field
keep their values and no gate hook is invoked), and `setGatePower` returns false. -/
theorem negative_power_refused (deq : α → α → Bool) (s : HHChannelBase α) (power : α)
    (h : power < 0) :
    setXpower deq s power = { s with trace := s.trace ++ [Effect.coutCannotBeNegative] } ∧
    setYpower deq s power = { s with trace := s.trace ++ [Effect.coutCannotBeNegative] } ∧
    setZpower deq s power = { s with trace := s.trace ++ [Effect.coutCannotBeNegative] } ∧
    vSetXpower deq s power
      = { s with trace := s.trace ++ [Effect.coutNegativePower "X" power] } ∧
    vSetYpower deq s power
      = { s with trace := s.trace ++ [Effect.coutNegativePower "Y" power] } ∧
    vSetZpower deq s power
      = { s with trace := s.trace ++ [Effect.coutNegativePower "Z" power] } ∧
    ∀ (assignee : DoubleField) (gateType : String),
      setGatePower deq s power assignee gateType
        = (false, { s with trace := s.trace ++ [Effect.coutNegativePower gateType power] }) := by
  refine ⟨?_, ?_, ?_, ?_, ?_, ?_, ?_⟩
  · simp [setXpower, checkPower_neg power _ h]
  · simp [setYpower, checkPower_neg power _ h]
  · simp [setZpower, checkPower_neg power _ h]
  · simp [vSetXpower, setGatePower_neg deq s power _ _ h]
  · simp [vSetYpower, setGatePower_neg deq s power _ _ h]
  · simp [vSetZpower, setGatePower_neg deq s power _ _ h]
  · intro a g
    exact setGatePower_neg deq s power a g h

/-- Witness for C6: power -1 through `vSetZpower` on a freshly constructed channel. -/
theorem negative_power_refused_witness :
    vSetZpower doubleEq (ctor PFDD.powerN PFDD.powerN PFDD.powerN) (-1 : ℚ)
      = { (ctor PFDD.powerN PFDD.powerN PFDD.powerN : HHChannelBase ℚ) with
          trace := (ctor PFDD.powerN PFDD.powerN PFDD.powerN : HHChannelBase ℚ).trace
            ++ [Effect.coutNegativePower "Z" (-1)] } :=
  (negative_power_refused doubleEq (ctor PFDD.powerN PFDD.powerN PFDD.powerN) (-1 : ℚ)
    (by norm_num)).2.2.2.2.2.1

/-- C9: gate lifecycle of `setGatePower` for every power >= 0, with `doubleEq` reflexive
and exact at zero: from current power 0 to a positive power `createGate` is invoked
exactly once and `destroyGate` not at all; from a non-zero current power to power 0
`destroyGate` is invoked exactly once and `createGate` not at all; and when the new
power equals the current one neither is invoked, the stored power (the whole object) is
unchanged and the call returns false. -/
theorem setGatePower_lifecycle (deq : α → α → Bool) (s : HHChannelBase α) (power : α)
    (assignee : DoubleField) (gateType : String)
    (hrefl : ∀ a, deq a a = true) (hzl : ∀ a, deq a 0 = true → a = 0)
    (hzr : ∀ a, deq 0 a = true → a = 0) (hp : 0 ≤ power) :
    (s.deref assignee = 0 → 0 < power →
      setGatePower deq s power assignee gateType
        = (true, (createGate s gateType).assign power assignee) ∧
      (setGatePower deq s power assignee gateType).2.trace
        = s.trace ++ [Effect.createGate gateType]) ∧
    (power = 0 → s.deref assignee ≠ 0 →
      setGatePower deq s power assignee gateType
        = (true, (destroyGate s gateType).assign power assignee) ∧
      (setGatePower deq s power assignee gateType).2.trace
        = s.trace ++ [Effect.destroyGate gateType]) ∧
    (power = s.deref assignee →
      setGatePower deq s power assignee gateType = (false, s)) := by
  refine ⟨?_, ?_, ?_⟩
  · intro hcur hpos
    have h1 : deq power 0 = false := by
      by_contra hc
      exact (ne_of_gt hpos) (hzl power (by simpa using hc))
    have h2 : setGatePower deq s power assignee gateType
        = (true, (createGate s gateType).assign power assignee) := by
      simp [setGatePower, not_lt.mpr hp, hcur, h1, hrefl, hpos]
    refine ⟨h2, ?_⟩
    rw [h2]
    cases assignee <;> rfl
  · intro hzero hcur
    subst hzero
    have h1 : deq 0 (s.deref assignee) = false := by
      by_contra hc
      exact hcur (hzr _ (by simpa using hc))
    have h2 : setGatePower deq s 0 assignee gateType
        = (true, (destroyGate s gateType).assign 0 assignee) := by
      simp [setGatePower, h1, hrefl]
    refine ⟨h2, ?_⟩
    rw [h2]
    cases assignee <;> rfl
  · intro hsame
    exact setGatePower_same deq s power assignee gateType hp (by rw [hsame]; exact hrefl _)

/-- Witness for C9: the transitions 0 -> 2 and 2 -> 0 of the X power on a freshly
constructed channel. -/
theorem setGatePower_lifecycle_witness :
    (setGatePower doubleEq (ctor PFDD.powerN PFDD.powerN PFDD.powerN : HHChannelBase ℚ) 2
        DoubleField.Xpower_ "X").2.trace = [Effect.createGate "X"] ∧
    (setGatePower doubleEq
        ((setGatePower doubleEq (ctor PFDD.powerN PFDD.powerN PFDD.powerN : HHChannelBase ℚ) 2
          DoubleField.Xpower_ "X").2) 0 DoubleField.Xpower_ "X").2.trace
      = [Effect.createGate "X", Effect.destroyGate "X"] := by
  have hrefl : ∀ a : ℚ, doubleEq a a = true := by intro a; simp [doubleEq]
  have hzl : ∀ a : ℚ, doubleEq a 0 = true → a = 0 := by intro a; simp [doubleEq]
  have hzr : ∀ a : ℚ, doubleEq 0 a = true → a = 0 := by
    intro a h
    have : (0 : ℚ) = a := by simpa [doubleEq] using h
    exact this.symm
  have h1 := (setGatePower_lifecycle doubleEq
    (ctor PFDD.powerN PFDD.powerN PFDD.powerN : HHChannelBase ℚ) 2 DoubleField.Xpower_ "X"
    hrefl hzl hzr (by norm_num)).1 rfl (by norm_num)
  have h2 := (setGatePower_lifecycle doubleEq
    ((createGate (ctor PFDD.powerN PFDD.powerN PFDD.powerN : HHChannelBase ℚ) "X").assign 2
      DoubleField.Xpower_) 0 DoubleField.Xpower_ "X"
    hrefl hzl hzr (by norm_num)).2.1 rfl (by simp [deref, assign])
  refine ⟨?_, ?_⟩
  · rw [h1.2]; rfl
  · rw [h1.1, h2.2]; rfl

/-- C10 fails as stated: on a freshly constructed channel (Zpower 0, useConcentration 0),
`vSetZpower` with power 0 >= 0 leaves `useConcentration` at 0. -/
theorem vSetZpower_same_power_keeps_flag :
    (0 : ℚ) ≥ 0 ∧
    getUseConcentration
      (vSetZpower doubleEq (ctor PFDD.powerN PFDD.powerN PFDD.powerN) (0 : ℚ)) = 0 := by
  refine ⟨le_refl _, ?_⟩
  simp [vSetZpower, setGatePower, doubleEq, deref, ctor, getUseConcentration]

/-- C10 (amended): for every channel state and every power p >= 0 that `doubleEq` tells
apart from the stored Z power, after `vSetZpower` the `useConcentration` flag is 1; when
`doubleEq` finds p equal to the stored Z power, the call changes nothing. -/
theorem vSetZpower_useConcentration (deq : α → α → Bool) (s : HHChannelBase α) (p : α)
    (hp : 0 ≤ p) :
    (deq p s.Zpower_ = false → getUseConcentration (vSetZpower deq s p) = 1) ∧
    (deq p s.Zpower_ = true → vSetZpower deq s p = s) := by
  constructor
  · intro hd
    have h := setGatePower_changed deq s p DoubleField.Zpower_ "Z" hp hd
    simp [vSetZpower, h, getUseConcentration]
  · intro hd
    have h := setGatePower_same deq s p DoubleField.Zpower_ "Z" hp hd
    simp [vSetZpower, h]

/-- Witness for C10 (amended): power 2 on a freshly constructed channel. -/
theorem vSetZpower_useConcentration_witness :
    getUseConcentration
      (vSetZpower doubleEq (ctor PFDD.powerN PFDD.powerN PFDD.powerN) (2 : ℚ)) = 1 :=
  (vSetZpower_useConcentration doubleEq (ctor PFDD.powerN PFDD.powerN PFDD.powerN) (2 : ℚ)
    (by norm_num)).1 (by simp [doubleEq, ctor])

end PowerClaims

/-! ## Power evaluators: helper lemmas -/

theorem repeatedMul_eq_pow (x : ℝ) (n : ℕ) : repeatedMul x n = x ^ n := by
  induction n with
  | zero => simp [repeatedMul]
  | succ k ih => rw [repeatedMul, ih, pow_succ]; ring

theorem powerN_nat (x : ℝ) (p : ℕ) (hx : 0 ≤ x) (hp : 1 ≤ p) :
    powerN Real.exp Real.log x (p : ℝ) = repeatedMul x p := by
  rw [repeatedMul_eq_pow]
  rcases eq_or_lt_of_le hx with h0 | hpos
  · subst h0
    have hp0 : p ≠ 0 := by omega
    simp [powerN, hp0]
  · simp only [powerN, gt_iff_lt, hpos, if_true]
    rw [Real.exp_nat_mul, Real.exp_log hpos]

theorem selectPower_zero_call (deq : ℝ → ℝ → Bool) :
    call Real.exp Real.log (selectPower deq 0) 0 0 = 0 := by
  unfold selectPower
  split_ifs <;> simp [call, powerN, power1, power2, power3, power4]

/-! ## Power evaluators: claims -/

/-- C7 fails as stated: for the exponent 0 at x = 0 the routine returned by
`selectPower 0` gives 0, while `x^0` by repeated multiplication is 1. -/
theorem selectPower_zero_at_zero :
    selectPower doubleEq (((0 : ℕ) : ℝ)) = PFDD.powerN ∧
    call Real.exp Real.log (selectPower doubleEq (((0 : ℕ) : ℝ))) 0 ((0 : ℕ) : ℝ) = 0 ∧
    repeatedMul (0 : ℝ) 0 = 1 := by
  refine ⟨?_, ?_, rfl⟩
  · simp [selectPower, doubleEq]
  · simp [selectPower, doubleEq, call, powerN]

/-- C7 (amended): provided `doubleEq` does not identify an integer of 0..4 with a
different integer of 1..4, for every x >= 0 and every integer exponent p in {1,2,3,4}
the routine returned by `selectPower p`, applied to (x, p), equals `x^p` computed by
repeated multiplication; for the exponent 0 the routine returned is `powerN`, which gives
1 for x > 0 and 0 at x = 0. -/
theorem selectPower_fast_path (deq : ℝ → ℝ → Bool) (x : ℝ) (p : ℕ)
    (hdeq : ∀ i j : ℕ, i ≤ 4 → 1 ≤ j → j ≤ 4 → deq (i : ℝ) (j : ℝ) = true → i = j)
    (hx : 0 ≤ x) (hp : p ≤ 4) :
    (1 ≤ p → call Real.exp Real.log (selectPower deq (p : ℝ)) x (p : ℝ) = repeatedMul x p) ∧
    (p = 0 → selectPower deq (p : ℝ) = PFDD.powerN ∧
      call Real.exp Real.log (selectPower deq (p : ℝ)) x (p : ℝ) = if x > 0 then 1 else 0) := by
  have h1 := hdeq p 1 hp (by norm_num) (by norm_num)
  have h2 := hdeq p 2 hp (by norm_num) (by norm_num)
  have h3 := hdeq p 3 hp (by norm_num) (by norm_num)
  have h4 := hdeq p 4 hp (by norm_num) (by norm_num)
  simp only [Nat.cast_one, Nat.cast_ofNat] at h1 h2 h3 h4
  constructor
  · intro hp1
    have hN := powerN_nat x p hx hp1
    unfold selectPower
    split_ifs with c0 c1 c2 c3 c4
    · exact hN
    · rw [h1 c1]; simp [call, power1, repeatedMul]
    · rw [h2 c2]; simp [call, power2, repeatedMul]
    · rw [h3 c3]; simp [call, power3, repeatedMul]; ring
    · rw [h4 c4]; simp [call, power4, repeatedMul]; ring
    · exact hN
  · intro hp0
    subst hp0
    have hsel : selectPower deq ((0 : ℕ) : ℝ) = PFDD.powerN := by
      unfold selectPower
      split_ifs with c0 c1 c2 c3 c4
      · rfl
      · exact absurd (h1 c1) (by norm_num)
      · exact absurd (h2 c2) (by norm_num)
      · exact absurd (h3 c3) (by norm_num)
      · exact absurd (h4 c4) (by norm_num)
      · rfl
    refine ⟨hsel, ?_⟩
    rw [hsel]
    simp [call, powerN]

/-- Witness for C7 (amended): exponent 3 at x = 2 under the exact `doubleEq`. -/
theorem selectPower_fast_path_witness :
    call Real.exp Real.log (selectPower doubleEq (((3 : ℕ)) : ℝ)) 2 ((3 : ℕ) : ℝ)
      = repeatedMul 2 3 :=
  (selectPower_fast_path doubleEq 2 3
    (by
      intro i j _ _ _ h
      have : (i : ℝ) = (j : ℝ) := by simpa [doubleEq] using h
      exact_mod_cast this)
    (by norm_num) (by norm_num)).1 (by norm_num)

/-- C8: for every non-negative exponent p that `doubleEq` tells apart from 1, 2, 3 and 4,
the routine returned by `selectPower p` is `powerN`, and `powerN x p` equals
`exp(p*ln(x))` for every x > 0 and 0 for every x <= 0 (in particular at x = 0). -/
theorem selectPower_general_path (deq : ℝ → ℝ → Bool) (p : ℝ) (_hp : 0 ≤ p)
    (h1 : deq p 1 = false) (h2 : deq p 2 = false) (h3 : deq p 3 = false)
    (h4 : deq p 4 = false) :
    selectPower deq p = PFDD.powerN ∧
    (∀ x : ℝ, call Real.exp Real.log (selectPower deq p) x p = powerN Real.exp Real.log x p) ∧
    (∀ x : ℝ, x > 0 → powerN Real.exp Real.log x p = Real.exp (p * Real.log x)) ∧
    (∀ x : ℝ, x ≤ 0 → powerN Real.exp Real.log x p = 0) ∧
    powerN Real.exp Real.log 0 p = 0 := by
  have hsel : selectPower deq p = PFDD.powerN := by
    simp [selectPower, h1, h2, h3, h4]
  refine ⟨hsel, ?_, ?_, ?_, ?_⟩
  · intro x; rw [hsel]; rfl
  · intro x hx; simp [powerN, hx]
  · intro x hx; simp [powerN, not_lt.mpr hx]
  · simp [powerN]

/-- Witness for C8: the exponent 5/2 under the exact `doubleEq`. -/
theorem selectPower_general_path_witness :
    selectPower doubleEq ((5 : ℝ) / 2) = PFDD.powerN ∧
    powerN Real.exp Real.log 0 ((5 : ℝ) / 2) = 0 := by
  have h := selectPower_general_path doubleEq ((5 : ℝ) / 2) (by norm_num)
    (by simp [doubleEq]; norm_num) (by simp [doubleEq]; norm_num)
    (by simp [doubleEq]; norm_num) (by simp [doubleEq]; norm_num)
  exact ⟨h.1, h.2.2.2.2⟩

/-! ## Integrator: further claims -/

theorem exp_neg_one_div_25_bounds :
    (96078 : ℝ) / 100000 ≤ Real.exp (-(1 / 25 : ℝ)) ∧
    Real.exp (-(1 / 25 : ℝ)) ≤ (96082 : ℝ) / 100000 := by
  have h := Real.exp_bound (x := -(1 / 25 : ℝ))
    (by rw [abs_neg, abs_of_pos] <;> norm_num) (n := 3) (by norm_num)
  simp only [Finset.sum_range_succ, Finset.sum_range_zero, Nat.factorial] at h
  rw [abs_neg, abs_of_pos (by norm_num : (0 : ℝ) < 1 / 25)] at h
  norm_num at h
  rw [abs_le] at h
  constructor <;> linarith [h.1, h.2]

theorem integrate_tick_value :
    integrate Real.exp 0 (1e-4) 200 400 = (1 / 2) * (1 - Real.exp (-(1 / 25 : ℝ))) := by
  rw [integrate_exp_branch 0 (1e-4) 200 400 (by unfold EPSILON; norm_num)]
  have harg : (-400 : ℝ) * 1e-4 = -(1 / 25) := by norm_num
  rw [harg]
  norm_num

/-- C13 fails as stated: the new gate state `integrate 0 1e-4 200 400` lies above
0.0195, outside the interval [0.00975, 0.00985) of the numbers that round to 0.0098 at
four decimal places. -/
theorem integrate_tick_not_0098 :
    (0.00985 : ℝ) < 0.0195 ∧ (0.0195 : ℝ) < integrate Real.exp 0 (1e-4) 200 400 := by
  rw [integrate_tick_value]
  have h := exp_neg_one_div_25_bounds
  constructor
  · norm_num
  · norm_num
    linarith [h.2]

/-- C13 (amended): for a gate starting at X = 0 with rates A = 200, B = 400 and
dt = 1e-4, the new gate state `integrate 0 1e-4 200 400` is approximately 0.0196: it
lies in [0.01955, 0.01965), so it rounds to 0.0196 at four decimal places. -/
theorem integrate_tick_0196 :
    (0.01955 : ℝ) ≤ integrate Real.exp 0 (1e-4) 200 400 ∧
    integrate Real.exp 0 (1e-4) 200 400 < (0.01965 : ℝ) := by
  rw [integrate_tick_value]
  have h := exp_neg_one_div_25_bounds
  constructor
  · norm_num
    linarith [h.2]
  · norm_num
    linarith [h.1]

/-- C16: on the exponential branch the integrator keeps an open fraction inside [0,1]:
for `state` in [0,1], `0 <= A <= B`, `B > EPSILON` and `dt >= 0`, the result of
`integrate` lies in [0,1]. -/
theorem integrate_unit_interval (state dt A B : ℝ) (hs0 : 0 ≤ state) (hs1 : state ≤ 1)
    (hA0 : 0 ≤ A) (hAB : A ≤ B) (hB : B > EPSILON ℝ) (hdt : 0 ≤ dt) :
    0 ≤ integrate Real.exp state dt A B ∧ integrate Real.exp state dt A B ≤ 1 := by
  have hBpos : 0 < B := lt_trans EPSILON_pos hB
  rw [integrate_exp_branch state dt A B hB]
  have hx0 : 0 < Real.exp (-B * dt) := Real.exp_pos _
  have hx1 : Real.exp (-B * dt) ≤ 1 := by
    rw [Real.exp_le_one_iff]
    nlinarith
  have hq0 : 0 ≤ A / B := div_nonneg hA0 hBpos.le
  have hq1 : A / B ≤ 1 := (div_le_one hBpos).mpr hAB
  generalize Real.exp (-B * dt) = x at hx0 hx1
  generalize A / B = q at hq0 hq1
  constructor <;> nlinarith

/-- Witness for C16 at `state = 1/2`, `dt = 1`, `A = 1`, `B = 2`. -/
theorem integrate_unit_interval_witness :
    0 ≤ integrate Real.exp (1 / 2) 1 1 2 ∧ integrate Real.exp (1 / 2) 1 1 2 ≤ 1 :=
  integrate_unit_interval (1 / 2) 1 1 2 (by norm_num) (by norm_num) (by norm_num)
    (by norm_num) (by unfold EPSILON; norm_num) (by norm_num)

/-- C17 (amended): step composition of the integrator in exact real arithmetic: for all
`state`, `A`, `B`, `dt1`, `dt2`,
`integrate (integrate state dt1 A B) dt2 A B = integrate state (dt1 + dt2) A B`, on the
exponential and on the Euler branch alike, and `integrate state 0 A B = state`. -/
theorem integrate_step_composition (state A B dt1 dt2 : ℝ) :
    integrate Real.exp (integrate Real.exp state dt1 A B) dt2 A B
      = integrate Real.exp state (dt1 + dt2) A B ∧
    integrate Real.exp state 0 A B = state := by
  rcases lt_or_le (EPSILON ℝ) B with hB | hB
  · rw [integrate_exp_branch _ dt2 A B hB, integrate_exp_branch state dt1 A B hB,
      integrate_exp_branch state (dt1 + dt2) A B hB, integrate_exp_branch state 0 A B hB]
    constructor
    · have hmul : Real.exp (-B * (dt1 + dt2))
          = Real.exp (-B * dt1) * Real.exp (-B * dt2) := by
        rw [← Real.exp_add]
        congr 1
        ring
      rw [hmul]
      ring
    · simp
  · rw [integrate_euler_branch _ dt2 A B hB, integrate_euler_branch state dt1 A B hB,
      integrate_euler_branch state (dt1 + dt2) A B hB, integrate_euler_branch state 0 A B hB]
    constructor
    · ring
    · ring

/-! ## Stored evaluators and solver hand-off: helper lemmas -/

section HandOffLemmas

variable {α : Type} [LinearOrderedField α]

theorem setGatePower_changed_eq (deq : α → α → Bool) (s : HHChannelBase α) (power : α)
    (a : DoubleField) (g : String) (h : 0 ≤ power) (hdiff : deq power (s.deref a) = false) :
    ∃ t, setGatePower deq s power a g
      = (true, ({ s with trace := t } : HHChannelBase α).assign power a) := by
  have h0 : ¬ power < 0 := not_lt.mpr h
  by_cases c1 : (deq (s.deref a) 0 && decide (power > 0)) = true
  · exact ⟨s.trace ++ [Effect.createGate g], by
      simp [setGatePower, h0, hdiff, c1, createGate]⟩
  · by_cases c2 : deq power 0 = true
    · exact ⟨s.trace ++ [Effect.destroyGate g], by
        simp [setGatePower, h0, hdiff, c1, c2, destroyGate]⟩
    · exact ⟨s.trace, by simp [setGatePower, h0, hdiff, c1, c2]⟩

theorem vSetXpower_fields (deq : α → α → Bool) (s : HHChannelBase α) (p : α)
    (hsound : ∀ a b, deq a b = true → a = b) (hp : 0 ≤ p) :
    (vSetXpower deq s p).Xpower_ = p ∧ (vSetXpower deq s p).Ypower_ = s.Ypower_ ∧
    (vSetXpower deq s p).Zpower_ = s.Zpower_ ∧
    (vSetXpower deq s p).useConcentration_ = s.useConcentration_ := by
  cases hd : deq p s.Xpower_
  · obtain ⟨t, ht⟩ := setGatePower_changed_eq deq s p DoubleField.Xpower_ "X" hp hd
    simp [vSetXpower, ht, assign]
  · have h := setGatePower_same deq s p DoubleField.Xpower_ "X" hp hd
    simp [vSetXpower, h, (hsound _ _ hd).symm]

theorem vSetYpower_fields (deq : α → α → Bool) (s : HHChannelBase α) (p : α)
    (hsound : ∀ a b, deq a b = true → a = b) (hp : 0 ≤ p) :
    (vSetYpower deq s p).Xpower_ = s.Xpower_ ∧ (vSetYpower deq s p).Ypower_ = p ∧
    (vSetYpower deq s p).Zpower_ = s.Zpower_ ∧
    (vSetYpower deq s p).useConcentration_ = s.useConcentration_ := by
  cases hd : deq p s.Ypower_
  · obtain ⟨t, ht⟩ := setGatePower_changed_eq deq s p DoubleField.Ypower_ "Y" hp hd
    simp [vSetYpower, ht, assign]
  · have h := setGatePower_same deq s p DoubleField.Ypower_ "Y" hp hd
    simp [vSetYpower, h, (hsound _ _ hd).symm]

theorem vSetZpower_fields (deq : α → α → Bool) (s : HHChannelBase α) (p : α)
    (hsound : ∀ a b, deq a b = true → a = b) (hp : 0 ≤ p) :
    (vSetZpower deq s p).Xpower_ = s.Xpower_ ∧ (vSetZpower deq s p).Ypower_ = s.Ypower_ ∧
    (vSetZpower deq s p).Zpower_ = p ∧
    (vSetZpower deq s p).useConcentration_
      = if deq p s.Zpower_ then s.useConcentration_ else 1 := by
  cases hd : deq p s.Zpower_
  · obtain ⟨t, ht⟩ := setGatePower_changed_eq deq s p DoubleField.Zpower_ "Z" hp hd
    simp [vSetZpower, ht, assign]
  · have h := setGatePower_same deq s p DoubleField.Zpower_ "Z" hp hd
    simp [vSetZpower, h, (hsound _ _ hd).symm]

theorem replayOne_params (deq : α → α → Bool) (hsolve : Nat) (sw : Channel α)
    (g e x y z u : α) (hsound : ∀ a b, deq a b = true → a = b)
    (hx : 0 ≤ x) (hy : 0 ≤ y) (hz : 0 ≤ z) :
    replayedParams (replayOne deq hsolve sw g e x y z u) = (g, e, x, y, z) ∧
    getUseConcentration (replayOne deq hsolve sw g e x y z u).hh
      = if deq z sw.hh.Zpower_ then sw.hh.useConcentration_ else 1 := by
  have hX := vSetXpower_fields deq sw.hh x hsound hx
  have hY := vSetYpower_fields deq (vSetXpower deq sw.hh x) y hsound hy
  have hZ := vSetZpower_fields deq (vSetYpower deq (vSetXpower deq sw.hh x) y) z hsound hz
  constructor
  · simp only [replayedParams, replayOne, vSetSolver, vSetGbar, vSetEk, vGetGbar, vGetEk,
      getXpower, getYpower, getZpower]
    rw [hZ.1, hZ.2.1, hZ.2.2.1, hY.1, hY.2.1, hX.1]
  · simp only [replayOne, vSetSolver, vSetGbar, vSetEk, getUseConcentration]
    rw [hZ.2.2.2, hY.2.2.1, hY.2.2.2, hX.2.2.1, hX.2.2.2]

theorem replay_snapshot (deq : α → α → Bool) (hsolve : Nat)
    (hsound : ∀ a b, deq a b = true → a = b) :
    ∀ (hbs sws : List (Channel α)), sws.length = hbs.length →
      (∀ hb ∈ hbs, 0 ≤ hb.hh.Xpower_ ∧ 0 ≤ hb.hh.Ypower_ ∧ 0 ≤ hb.hh.Zpower_) →
      (replay deq hsolve sws (snapshot hbs)).map replayedParams = hbs.map replayedParams ∧
      (replay deq hsolve sws (snapshot hbs)).map (fun c => getUseConcentration c.hh)
        = List.zipWith
            (fun hb sw => if deq hb.hh.Zpower_ sw.hh.Zpower_ then sw.hh.useConcentration_ else 1)
            hbs sws := by
  intro hbs
  induction hbs with
  | nil =>
      intro sws hlen _
      have : sws = [] := List.length_eq_zero.mp (by simpa using hlen)
      subst this
      simp [snapshot, replay]
  | cons hb rest ih =>
      intro sws hlen hpos
      cases sws with
      | nil => simp at hlen
      | cons sw sws1 =>
          have hlen1 : sws1.length = rest.length := by simpa using hlen
          have hhb := hpos hb (List.mem_cons_self _ _)
          have hrest := ih sws1 hlen1 (fun c hc => hpos c (List.mem_cons_of_mem _ hc))
          have hone := replayOne_params deq hsolve sw (vGetGbar hb) (vGetEk hb)
            (getXpower hb.hh) (getYpower hb.hh) (getZpower hb.hh)
            ((getUseConcentration hb.hh : Int) : α) hsound hhb.1 hhb.2.1 hhb.2.2
          simp only [snapshot, replay, List.map_cons, List.zipWith_cons_cons]
          rw [hone.1, hone.2, hrest.1, hrest.2]
          simp [replayedParams, getZpower]

theorem vSetXpower_cases (deq : α → α → Bool) (s : HHChannelBase α) (p : α) :
    (∃ t, vSetXpower deq s p = { s with trace := t }) ∨
    (∃ t, vSetXpower deq s p
      = { s with trace := t, Xpower_ := p, takeXpower_ := selectPower deq p }) := by
  rcases lt_or_le p 0 with hneg | hp
  · exact Or.inl ⟨s.trace ++ [Effect.coutNegativePower "X" p], by
      simp [vSetXpower, setGatePower_neg deq s p _ _ hneg]⟩
  · cases hd : deq p s.Xpower_
    · obtain ⟨t, ht⟩ := setGatePower_changed_eq deq s p DoubleField.Xpower_ "X" hp hd
      exact Or.inr ⟨t, by simp [vSetXpower, ht, assign]⟩
    · exact Or.inl ⟨s.trace, by
        simp [vSetXpower, setGatePower_same deq s p DoubleField.Xpower_ "X" hp hd]⟩

theorem vSetYpower_cases (deq : α → α → Bool) (s : HHChannelBase α) (p : α) :
    (∃ t, vSetYpower deq s p = { s with trace := t }) ∨
    (∃ t, vSetYpower deq s p
      = { s with trace := t, Ypower_ := p, takeYpower_ := selectPower deq p }) := by
  rcases lt_or_le p 0 with hneg | hp
  · exact Or.inl ⟨s.trace ++ [Effect.coutNegativePower "Y" p], by
      simp [vSetYpower, setGatePower_neg deq s p _ _ hneg]⟩
  · cases hd : deq p s.Ypower_
    · obtain ⟨t, ht⟩ := setGatePower_changed_eq deq s p DoubleField.Ypower_ "Y" hp hd
      exact Or.inr ⟨t, by simp [vSetYpower, ht, assign]⟩
    · exact Or.inl ⟨s.trace, by
        simp [vSetYpower, setGatePower_same deq s p DoubleField.Ypower_ "Y" hp hd]⟩

theorem vSetZpower_cases (deq : α → α → Bool) (s : HHChannelBase α) (p : α) :
    (∃ t, vSetZpower deq s p = { s with trace := t }) ∨
    (∃ t, vSetZpower deq s p
      = { s with trace := t, Zpower_ := p, takeZpower_ := selectPower deq p,
                 useConcentration_ := 1 }) := by
  rcases lt_or_le p 0 with hneg | hp
  · exact Or.inl ⟨s.trace ++ [Effect.coutNegativePower "Z" p], by
      simp [vSetZpower, setGatePower_neg deq s p _ _ hneg]⟩
  · cases hd : deq p s.Zpower_
    · obtain ⟨t, ht⟩ := setGatePower_changed_eq deq s p DoubleField.Zpower_ "Z" hp hd
      exact Or.inr ⟨t, by simp [vSetZpower, ht, assign]⟩
    · exact Or.inl ⟨s.trace, by
        simp [vSetZpower, setGatePower_same deq s p DoubleField.Zpower_ "Z" hp hd]⟩

end HandOffLemmas

/-! ## Stored evaluators and solver hand-off: claims -/

section HandOffClaims

variable {α : Type} [LinearOrderedField α]

/-- C11 fails as stated: a batch of one channel of class "HHChannel" with Zpower 0 and
useConcentration 1, handed to the class "ZombieHHChannel" with freshly constructed
swapped storage, has useConcentration 0 after `zombify`. -/
theorem zombify_loses_useConcentration :
    ((zombify doubleEq zombieSwapFresh
        ({ cinfo := "HHChannel", localDataStart := 0,
           data := [{ Gbar_ := 1, Ek_ := 0,
                      hh := { (ctor PFDD.powerN PFDD.powerN PFDD.powerN : HHChannelBase ℚ) with
                              useConcentration_ := 1 } }] } : Element ℚ)
        "ZombieHHChannel" 0).data.map (fun c => getUseConcentration c.hh)) = [0] ∧
    (({ cinfo := "HHChannel", localDataStart := 0,
        data := [{ Gbar_ := 1, Ek_ := 0,
                   hh := { (ctor PFDD.powerN PFDD.powerN PFDD.powerN : HHChannelBase ℚ) with
                           useConcentration_ := 1 } }] } : Element ℚ).data.map
      (fun c => getUseConcentration c.hh)) = [1] := by
  constructor
  · simp [zombify, zombieSwapFresh, snapshot, replay, replayOne, vSetSolver, vSetGbar,
      vSetEk, vGetGbar, vGetEk, getXpower, getYpower, getZpower, vSetXpower, vSetYpower,
      vSetZpower, setGatePower, deref, doubleEq, ctor, getUseConcentration]
  · simp [getUseConcentration]

/-- C11 (amended): for every batch of channel instances whose class differs from the
target class and whose stored powers are non-negative (`doubleEq` holding of equal
numbers only, the swap keeping the number of instances), after `zombify` each instance's
five parameters Gbar, Ek, Xpower, Ypower and Zpower are identical to their values before
the call; useConcentration is not replayed: it is 1 where the Zpower replay changed the
stored Z power of the swapped instance, and the swapped instance's own value elsewhere. -/
theorem zombify_round_trip (deq : α → α → Bool)
    (zombieSwap : String → Element α → Element α) (orig : Element α) (zClass : String)
    (hsolve : Nat) (hsound : ∀ a b, deq a b = true → a = b)
    (hclass : orig.cinfo ≠ zClass)
    (hlen : (zombieSwap zClass orig).data.length = orig.data.length)
    (hpos : ∀ hb ∈ orig.data, 0 ≤ hb.hh.Xpower_ ∧ 0 ≤ hb.hh.Ypower_ ∧ 0 ≤ hb.hh.Zpower_) :
    (zombify deq zombieSwap orig zClass hsolve).data.map replayedParams
      = orig.data.map replayedParams ∧
    (1 ≤ orig.data.length →
      (zombify deq zombieSwap orig zClass hsolve).data.map (fun c => getUseConcentration c.hh)
        = List.zipWith
            (fun hb sw => if deq hb.hh.Zpower_ sw.hh.Zpower_ then sw.hh.useConcentration_ else 1)
            orig.data (zombieSwap zClass orig).data) := by
  have h := replay_snapshot deq hsolve hsound orig.data (zombieSwap zClass orig).data hlen hpos
  by_cases hnum : orig.data.length = 0
  · constructor
    · simp [zombify, hclass, hnum]
    · intro h1
      omega
  · constructor
    · simp only [zombify, hclass, hnum, if_false]
      exact h.1
    · intro _
      simp only [zombify, hclass, hnum, if_false]
      exact h.2

/-- Witness for C11 (amended): one channel with powers 3, 0, 2 handed over with freshly
constructed swapped storage. -/
theorem zombify_round_trip_witness :
    (zombify doubleEq zombieSwapFresh
        ({ cinfo := "HHChannel", localDataStart := 0,
           data := [{ Gbar_ := 1, Ek_ := 7,
                      hh := { (ctor PFDD.powerN PFDD.powerN PFDD.powerN : HHChannelBase ℚ) with
                              Xpower_ := 3, Zpower_ := 2 } }] } : Element ℚ)
        "ZombieHHChannel" 0).data.map replayedParams = [(1, 7, 3, 0, 2)] :=
  (zombify_round_trip doubleEq zombieSwapFresh
    ({ cinfo := "HHChannel", localDataStart := 0,
       data := [{ Gbar_ := 1, Ek_ := 7,
                  hh := { (ctor PFDD.powerN PFDD.powerN PFDD.powerN : HHChannelBase ℚ) with
                          Xpower_ := 3, Zpower_ := 2 } }] } : Element ℚ)
    "ZombieHHChannel" 0
    (by intro a b h; simpa [doubleEq] using h)
    (by decide)
    (by simp [zombieSwapFresh])
    (by simp [ctor])).1

/-- C14: `zombify` does nothing on an element that already has the target class, or that
holds no local instances: whatever the swap would do, the element is returned as it is
(nothing is swapped and no setter runs). -/
theorem zombify_already_migrated (deq : α → α → Bool)
    (zombieSwap : String → Element α → Element α) (orig : Element α) (zClass : String)
    (hsolve : Nat) (h : orig.cinfo = zClass ∨ orig.data.length = 0) :
    zombify deq zombieSwap orig zClass hsolve = orig := by
  rcases h with h | h
  · simp [zombify, h]
  · simp [zombify, h]

/-- Witness for C14: an element of class "ZombieHHChannel" with one instance. -/
theorem zombify_already_migrated_witness :
    zombify doubleEq zombieSwapFresh
        ({ cinfo := "ZombieHHChannel", localDataStart := 0,
           data := [{ Gbar_ := 1, Ek_ := 7,
                      hh := ctor PFDD.powerN PFDD.powerN PFDD.powerN }] } : Element ℚ)
        "ZombieHHChannel" 0
      = ({ cinfo := "ZombieHHChannel", localDataStart := 0,
           data := [{ Gbar_ := 1, Ek_ := 7,
                      hh := ctor PFDD.powerN PFDD.powerN PFDD.powerN }] } : Element ℚ) :=
  zombify_already_migrated doubleEq zombieSwapFresh _ "ZombieHHChannel" 0 (Or.inl rfl)

/-- C15: the stored evaluator stays consistent with the stored power: each of the
predicates "takeXpower_ = selectPower(Xpower_)", and likewise for Y and Z, is preserved
by every call of `vSetXpower`, `vSetYpower` and `vSetZpower`, and the predicate of a gate
holds after every call of its setter that changes the stored power. -/
theorem evaluator_follows_power (deq : α → α → Bool) (s : HHChannelBase α) (power : α) :
    ((xEvaluatorSelected deq s → xEvaluatorSelected deq (vSetXpower deq s power)) ∧
     (yEvaluatorSelected deq s → yEvaluatorSelected deq (vSetXpower deq s power)) ∧
     (zEvaluatorSelected deq s → zEvaluatorSelected deq (vSetXpower deq s power))) ∧
    ((xEvaluatorSelected deq s → xEvaluatorSelected deq (vSetYpower deq s power)) ∧
     (yEvaluatorSelected deq s → yEvaluatorSelected deq (vSetYpower deq s power)) ∧
     (zEvaluatorSelected deq s → zEvaluatorSelected deq (vSetYpower deq s power))) ∧
    ((xEvaluatorSelected deq s → xEvaluatorSelected deq (vSetZpower deq s power)) ∧
     (yEvaluatorSelected deq s → yEvaluatorSelected deq (vSetZpower deq s power)) ∧
     (zEvaluatorSelected deq s → zEvaluatorSelected deq (vSetZpower deq s power))) ∧
    ((vSetXpower deq s power).Xpower_ ≠ s.Xpower_ →
      xEvaluatorSelected deq (vSetXpower deq s power)) ∧
    ((vSetYpower deq s power).Ypower_ ≠ s.Ypower_ →
      yEvaluatorSelected deq (vSetYpower deq s power)) ∧
    ((vSetZpower deq s power).Zpower_ ≠ s.Zpower_ →
      zEvaluatorSelected deq (vSetZpower deq s power)) := by
  have hX := vSetXpower_cases deq s power
  have hY := vSetYpower_cases deq s power
  have hZ := vSetZpower_cases deq s power
  refine ⟨⟨?_, ?_, ?_⟩, ⟨?_, ?_, ?_⟩, ⟨?_, ?_, ?_⟩, ?_, ?_, ?_⟩
  · rcases hX with ⟨t, h⟩ | ⟨t, h⟩ <;> rw [h] <;> intro hinv <;>
      simp_all [xEvaluatorSelected]
  · rcases hX with ⟨t, h⟩ | ⟨t, h⟩ <;> rw [h] <;> intro hinv <;>
      simp_all [yEvaluatorSelected]
  · rcases hX with ⟨t, h⟩ | ⟨t, h⟩ <;> rw [h] <;> intro hinv <;>
      simp_all [zEvaluatorSelected]
  · rcases hY with ⟨t, h⟩ | ⟨t, h⟩ <;> rw [h] <;> intro hinv <;>
      simp_all [xEvaluatorSelected]
  · rcases hY with ⟨t, h⟩ | ⟨t, h⟩ <;> rw [h] <;> intro hinv <;>
      simp_all [yEvaluatorSelected]
  · rcases hY with ⟨t, h⟩ | ⟨t, h⟩ <;> rw [h] <;> intro hinv <;>
      simp_all [zEvaluatorSelected]
  · rcases hZ with ⟨t, h⟩ | ⟨t, h⟩ <;> rw [h] <;> intro hinv <;>
      simp_all [xEvaluatorSelected]
  · rcases hZ with ⟨t, h⟩ | ⟨t, h⟩ <;> rw [h] <;> intro hinv <;>
      simp_all [yEvaluatorSelected]
  · rcases hZ with ⟨t, h⟩ | ⟨t, h⟩ <;> rw [h] <;> intro hinv <;>
      simp_all [zEvaluatorSelected]
  · rcases hX with ⟨t, h⟩ | ⟨t, h⟩ <;> rw [h] <;> intro hne <;>
      simp_all [xEvaluatorSelected]
  · rcases hY with ⟨t, h⟩ | ⟨t, h⟩ <;> rw [h] <;> intro hne <;>
      simp_all [yEvaluatorSelected]
  · rcases hZ with ⟨t, h⟩ | ⟨t, h⟩ <;> rw [h] <;> intro hne <;>
      simp_all [zEvaluatorSelected]

/-- Witness for C15: on a freshly constructed channel whose X evaluator is not the
selected one, `vSetXpower 2` changes the stored power and installs `power2`. -/
theorem evaluator_follows_power_witness :
    xEvaluatorSelected doubleEq
      (vSetXpower doubleEq (ctor PFDD.power1 PFDD.powerN PFDD.powerN : HHChannelBase ℚ) 2) :=
  (evaluator_follows_power doubleEq
    (ctor PFDD.power1 PFDD.powerN PFDD.powerN : HHChannelBase ℚ) 2).2.2.2.1
    (by
      rw [(vSetXpower_fields doubleEq _ 2 (by intro a b h; simpa [doubleEq] using h)
        (by norm_num)).1]
      simp [ctor])

end HandOffClaims

/-! ## The integrator in binary64 arithmetic: helper lemmas -/

theorem roundHalfEven_of_near (r : ℚ) (m : ℤ) (h : |r - m| < 1 / 2) :
    roundHalfEven r = m := by
  rw [abs_lt] at h
  rcases le_or_lt (m : ℚ) r with hge | hlt
  · have hf : ⌊r⌋ = m := by
      rw [Int.floor_eq_iff]
      constructor
      · exact hge
      · linarith [h.2]
    have h1 : r - (m : ℚ) < 1 / 2 := h.2
    simp only [roundHalfEven, hf]
    rw [if_pos h1]
  · have hf : ⌊r⌋ = m - 1 := by
      rw [Int.floor_eq_iff]
      push_cast
      constructor <;> linarith [h.1]
    have h1 : ¬ (r - ((m : ℚ) - 1) < 1 / 2) := by
      push_neg
      linarith [h.1]
    have h2 : (1 : ℚ) / 2 < r - ((m : ℚ) - 1) := by linarith [h.1]
    simp only [roundHalfEven, hf]
    push_cast
    rw [if_neg h1, if_pos h2]
    ring

theorem roundHalfEven_of_tie_even (r : ℚ) (m : ℤ) (h : r = m + 1 / 2) (he : m % 2 = 0) :
    roundHalfEven r = m := by
  have hf : ⌊r⌋ = m := by
    rw [Int.floor_eq_iff]
    constructor <;> linarith
  have h1 : ¬ (r - (m : ℚ) < 1 / 2) := by rw [h]; norm_num
  have h2 : ¬ ((1 : ℚ) / 2 < r - (m : ℚ)) := by rw [h]; norm_num
  simp only [roundHalfEven, hf]
  rw [if_neg h1, if_neg h2, if_pos he]

theorem roundHalfEven_of_tie_odd (r : ℚ) (m : ℤ) (h : r = m + 1 / 2) (ho : m % 2 = 1) :
    roundHalfEven r = m + 1 := by
  have hf : ⌊r⌋ = m := by
    rw [Int.floor_eq_iff]
    constructor <;> linarith
  have h1 : ¬ (r - (m : ℚ) < 1 / 2) := by rw [h]; norm_num
  have h2 : ¬ ((1 : ℚ) / 2 < r - (m : ℚ)) := by rw [h]; norm_num
  have h3 : ¬ (m % 2 = 0) := by omega
  simp only [roundHalfEven, hf]
  rw [if_neg h1, if_neg h2, if_neg h3]

theorem binade_eq (q : ℚ) (k : ℤ) (h0 : (2 : ℚ) ^ k ≤ |q|) (h1 : |q| < (2 : ℚ) ^ (k + 1)) :
    q ≠ 0 ∧ Int.log 2 |q| = k := by
  have hpos : (0 : ℚ) < |q| := lt_of_lt_of_le (by positivity) h0
  refine ⟨abs_pos.mp hpos, ?_⟩
  apply le_antisymm
  · have := (Int.lt_zpow_iff_log_lt (b := 2) (by norm_num) (x := k + 1) hpos).mp
      (by exact_mod_cast h1)
    omega
  · exact (Int.zpow_le_iff_le_log (b := 2) (by norm_num) hpos).mp (by exact_mod_cast h0)

theorem roundBinary64_of_near (q : ℚ) (k m : ℤ) (h0 : (2 : ℚ) ^ k ≤ |q|)
    (h1 : |q| < (2 : ℚ) ^ (k + 1)) (hm : |q / 2 ^ (k - 52) - m| < 1 / 2) :
    roundBinary64 q = m * 2 ^ (k - 52) := by
  obtain ⟨hq, hlog⟩ := binade_eq q k h0 h1
  simp only [roundBinary64, hq, if_false, hlog]
  rw [roundHalfEven_of_near _ m hm]

theorem roundBinary64_of_tie_even (q : ℚ) (k m : ℤ) (h0 : (2 : ℚ) ^ k ≤ |q|)
    (h1 : |q| < (2 : ℚ) ^ (k + 1)) (hm : q / 2 ^ (k - 52) = m + 1 / 2) (he : m % 2 = 0) :
    roundBinary64 q = m * 2 ^ (k - 52) := by
  obtain ⟨hq, hlog⟩ := binade_eq q k h0 h1
  simp only [roundBinary64, hq, if_false, hlog]
  rw [roundHalfEven_of_tie_even _ m hm he]

theorem roundBinary64_of_tie_odd (q : ℚ) (k m : ℤ) (h0 : (2 : ℚ) ^ k ≤ |q|)
    (h1 : |q| < (2 : ℚ) ^ (k + 1)) (hm : q / 2 ^ (k - 52) = m + 1 / 2) (ho : m % 2 = 1) :
    roundBinary64 q = (m + 1) * 2 ^ (k - 52) := by
  obtain ⟨hq, hlog⟩ := binade_eq q k h0 h1
  simp only [roundBinary64, hq, if_false, hlog]
  rw [roundHalfEven_of_tie_odd _ m hm ho]
  push_cast
  ring

theorem EPSILON64_eq : EPSILON64 = 7737125245533627 / 2 ^ 86 := by
  unfold EPSILON64 EPSILON
  rw [roundBinary64_of_near (1 / 10 ^ 10) (-34) (7737125245533627) (by norm_num [abs_of_pos])
    (by norm_num [abs_of_pos]) (by rw [abs_lt]; norm_num)]
  norm_num

theorem three_gt_EPSILON64 : (3 : ℚ) > EPSILON64 := by
  rw [EPSILON64_eq]
  norm_num

theorem zero_le_EPSILON64 : (0 : ℚ) ≤ EPSILON64 := by
  rw [EPSILON64_eq]
  norm_num

theorem integrateBinary64_exp_branch (exp : ℚ → ℚ) (state dt A B t x p1 y q p2 r : ℚ)
    (hB : B > EPSILON64) (ht : roundBinary64 (-B * dt) = t) (hx : exp t = x)
    (hp1 : roundBinary64 (state * x) = p1) (hy : roundBinary64 (1 - x) = y)
    (hq : roundBinary64 (A / B) = q) (hp2 : roundBinary64 (q * y) = p2)
    (hr : roundBinary64 (p1 + p2) = r) :
    integrateBinary64 exp state dt A B = r := by
  simp only [integrateBinary64, hB, if_true, ht, hx, hp1, hy, hq, hp2, hr]

theorem integrateBinary64_euler_branch (exp : ℚ → ℚ) (state dt A B a r : ℚ)
    (hB : B ≤ EPSILON64) (ha : roundBinary64 (A * dt) = a)
    (hr : roundBinary64 (state + a) = r) :
    integrateBinary64 exp state dt A B = r := by
  have h : ¬ B > EPSILON64 := not_lt.mpr hB
  simp only [integrateBinary64, h, if_false, ha, hr]

theorem roundBinary64_11_3 : roundBinary64 (11 / 3) = 8256599316845909 / 2 ^ 51 := by
  rw [roundBinary64_of_near (11 / 3) (1) (8256599316845909) (by norm_num [abs_of_pos])
    (by norm_num [abs_of_pos]) (by rw [abs_lt]; norm_num)]
  norm_num

theorem roundBinary64_neg_21_64 : roundBinary64 (-3 * (7 / 64)) = -(21 / 64) := by
  rw [roundBinary64_of_near (-3 * (7 / 64)) (-2) (-5910974510923776)
    (by norm_num [abs_of_neg]) (by norm_num [abs_of_neg]) (by rw [abs_lt]; norm_num)]
  norm_num

theorem exp_neg_21_64_bracket :
    ((3243821124132355 / 2 ^ 52 : ℚ) : ℝ) < Real.exp (-(21 / 64)) ∧
    Real.exp (-(21 / 64)) < ((6487642248264711 / 2 ^ 53 : ℚ) : ℝ) := by
  have h := Real.exp_bound (x := -(21 / 64 : ℝ))
    (by rw [abs_neg, abs_of_pos] <;> norm_num) (n := 15) (by norm_num)
  simp only [Finset.sum_range_succ, Finset.sum_range_zero, Nat.factorial] at h
  rw [abs_neg, abs_of_pos (by norm_num : (0 : ℝ) < 21 / 64)] at h
  norm_num at h
  rw [abs_le] at h
  push_cast
  constructor
  · have := h.1
    norm_num at this ⊢
    linarith
  · have := h.2
    norm_num at this ⊢
    linarith

theorem integrateBinary64_tick_below :
    integrateBinary64 (fun _ => 6487642248264709 / 2 ^ 53) (8256599316845909 / 2 ^ 51) (7 / 64) 11 3
      = 4128299658422955 / 2 ^ 50 := by
  have hp1 : roundBinary64 (8256599316845909 / 2 ^ 51 * (6487642248264709 / 2 ^ 53)) = 2973502697121325 / 2 ^ 50 := by
    rw [roundBinary64_of_near (8256599316845909 / 2 ^ 51 * (6487642248264709 / 2 ^ 53)) (1) (5947005394242650) (by norm_num [abs_of_pos])
      (by norm_num [abs_of_pos]) (by rw [abs_lt]; norm_num)]
    norm_num
  have hy : roundBinary64 (1 - 6487642248264709 / 2 ^ 53) = 2519557006476283 / 2 ^ 53 := by
    rw [roundBinary64_of_near (1 - 6487642248264709 / 2 ^ 53) (-2) (5039114012952566) (by norm_num [abs_of_pos])
      (by norm_num [abs_of_pos]) (by rw [abs_lt]; norm_num)]
    norm_num
  have hp2 : roundBinary64 (8256599316845909 / 2 ^ 51 * (2519557006476283 / 2 ^ 53)) = 4619187845206519 / 2 ^ 52 := by
    rw [roundBinary64_of_near (8256599316845909 / 2 ^ 51 * (2519557006476283 / 2 ^ 53)) (0) (4619187845206519) (by norm_num [abs_of_pos])
      (by norm_num [abs_of_pos]) (by rw [abs_lt]; norm_num)]
    norm_num
  have hr : roundBinary64 (2973502697121325 / 2 ^ 50 + 4619187845206519 / 2 ^ 52) = 4128299658422955 / 2 ^ 50 := by
    rw [roundBinary64_of_tie_odd (2973502697121325 / 2 ^ 50 + 4619187845206519 / 2 ^ 52) (1) (8256599316845909) (by norm_num [abs_of_pos])
      (by norm_num [abs_of_pos]) (by norm_num) (by decide)]
    norm_num
  exact integrateBinary64_exp_branch _ _ _ _ _ _ _ _ _ _ _ _ three_gt_EPSILON64
    roundBinary64_neg_21_64 rfl hp1 hy roundBinary64_11_3 hp2 hr

theorem integrateBinary64_tick_lower :
    integrateBinary64 (fun _ => 3243821124132355 / 2 ^ 52) (8256599316845909 / 2 ^ 51) (7 / 64) 11 3
      = 4128299658422955 / 2 ^ 50 := by
  have hp1 : roundBinary64 (8256599316845909 / 2 ^ 51 * (3243821124132355 / 2 ^ 52)) = 5947005394242651 / 2 ^ 51 := by
    rw [roundBinary64_of_near (8256599316845909 / 2 ^ 51 * (3243821124132355 / 2 ^ 52)) (1) (5947005394242651) (by norm_num [abs_of_pos])
      (by norm_num [abs_of_pos]) (by rw [abs_lt]; norm_num)]
    norm_num
  have hy : roundBinary64 (1 - 3243821124132355 / 2 ^ 52) = 1259778503238141 / 2 ^ 52 := by
    rw [roundBinary64_of_near (1 - 3243821124132355 / 2 ^ 52) (-2) (5039114012952564) (by norm_num [abs_of_pos])
      (by norm_num [abs_of_pos]) (by rw [abs_lt]; norm_num)]
    norm_num
  have hp2 : roundBinary64 (8256599316845909 / 2 ^ 51 * (1259778503238141 / 2 ^ 52)) = 4619187845206517 / 2 ^ 52 := by
    rw [roundBinary64_of_near (8256599316845909 / 2 ^ 51 * (1259778503238141 / 2 ^ 52)) (0) (4619187845206517) (by norm_num [abs_of_pos])
      (by norm_num [abs_of_pos]) (by rw [abs_lt]; norm_num)]
    norm_num
  have hr : roundBinary64 (5947005394242651 / 2 ^ 51 + 4619187845206517 / 2 ^ 52) = 4128299658422955 / 2 ^ 50 := by
    rw [roundBinary64_of_tie_odd (5947005394242651 / 2 ^ 51 + 4619187845206517 / 2 ^ 52) (1) (8256599316845909) (by norm_num [abs_of_pos])
      (by norm_num [abs_of_pos]) (by norm_num) (by decide)]
    norm_num
  exact integrateBinary64_exp_branch _ _ _ _ _ _ _ _ _ _ _ _ three_gt_EPSILON64
    roundBinary64_neg_21_64 rfl hp1 hy roundBinary64_11_3 hp2 hr

theorem integrateBinary64_tick_upper :
    integrateBinary64 (fun _ => 6487642248264711 / 2 ^ 53) (8256599316845909 / 2 ^ 51) (7 / 64) 11 3
      = 4128299658422955 / 2 ^ 50 := by
  have hp1 : roundBinary64 (8256599316845909 / 2 ^ 51 * (6487642248264711 / 2 ^ 53)) = 1486751348560663 / 2 ^ 49 := by
    rw [roundBinary64_of_near (8256599316845909 / 2 ^ 51 * (6487642248264711 / 2 ^ 53)) (1) (5947005394242652) (by norm_num [abs_of_pos])
      (by norm_num [abs_of_pos]) (by rw [abs_lt]; norm_num)]
    norm_num
  have hy : roundBinary64 (1 - 6487642248264711 / 2 ^ 53) = 2519557006476281 / 2 ^ 53 := by
    rw [roundBinary64_of_near (1 - 6487642248264711 / 2 ^ 53) (-2) (5039114012952562) (by norm_num [abs_of_pos])
      (by norm_num [abs_of_pos]) (by rw [abs_lt]; norm_num)]
    norm_num
  have hp2 : roundBinary64 (8256599316845909 / 2 ^ 51 * (2519557006476281 / 2 ^ 53)) = 4619187845206515 / 2 ^ 52 := by
    rw [roundBinary64_of_near (8256599316845909 / 2 ^ 51 * (2519557006476281 / 2 ^ 53)) (0) (4619187845206515) (by norm_num [abs_of_pos])
      (by norm_num [abs_of_pos]) (by rw [abs_lt]; norm_num)]
    norm_num
  have hr : roundBinary64 (1486751348560663 / 2 ^ 49 + 4619187845206515 / 2 ^ 52) = 4128299658422955 / 2 ^ 50 := by
    rw [roundBinary64_of_tie_odd (1486751348560663 / 2 ^ 49 + 4619187845206515 / 2 ^ 52) (1) (8256599316845909) (by norm_num [abs_of_pos])
      (by norm_num [abs_of_pos]) (by norm_num) (by decide)]
    norm_num
  exact integrateBinary64_exp_branch _ _ _ _ _ _ _ _ _ _ _ _ three_gt_EPSILON64
    roundBinary64_neg_21_64 rfl hp1 hy roundBinary64_11_3 hp2 hr

theorem integrateBinary64_tick_above :
    integrateBinary64 (fun _ => 810955281033089 / 2 ^ 50) (8256599316845909 / 2 ^ 51) (7 / 64) 11 3
      = 2064149829211477 / 2 ^ 49 := by
  have hp1 : roundBinary64 (8256599316845909 / 2 ^ 51 * (810955281033089 / 2 ^ 50)) = 1486751348560663 / 2 ^ 49 := by
    rw [roundBinary64_of_near (8256599316845909 / 2 ^ 51 * (810955281033089 / 2 ^ 50)) (1) (5947005394242652) (by norm_num [abs_of_pos])
      (by norm_num [abs_of_pos]) (by rw [abs_lt]; norm_num)]
    norm_num
  have hy : roundBinary64 (1 - 810955281033089 / 2 ^ 50) = 314944625809535 / 2 ^ 50 := by
    rw [roundBinary64_of_near (1 - 810955281033089 / 2 ^ 50) (-2) (5039114012952560) (by norm_num [abs_of_pos])
      (by norm_num [abs_of_pos]) (by rw [abs_lt]; norm_num)]
    norm_num
  have hp2 : roundBinary64 (8256599316845909 / 2 ^ 51 * (314944625809535 / 2 ^ 50)) = 4619187845206513 / 2 ^ 52 := by
    rw [roundBinary64_of_near (8256599316845909 / 2 ^ 51 * (314944625809535 / 2 ^ 50)) (0) (4619187845206513) (by norm_num [abs_of_pos])
      (by norm_num [abs_of_pos]) (by rw [abs_lt]; norm_num)]
    norm_num
  have hr : roundBinary64 (1486751348560663 / 2 ^ 49 + 4619187845206513 / 2 ^ 52) = 2064149829211477 / 2 ^ 49 := by
    rw [roundBinary64_of_tie_even (1486751348560663 / 2 ^ 49 + 4619187845206513 / 2 ^ 52) (1) (8256599316845908) (by norm_num [abs_of_pos])
      (by norm_num [abs_of_pos]) (by norm_num) (by decide)]
    norm_num
  exact integrateBinary64_exp_branch _ _ _ _ _ _ _ _ _ _ _ _ three_gt_EPSILON64
    roundBinary64_neg_21_64 rfl hp1 hy roundBinary64_11_3 hp2 hr

/-! ## The integrator in binary64 arithmetic: claims -/

/-- C2 fails as stated for the `double` the code returns: take B = 3 > EPSILON,
dt = 7/64 >= 0, A = 11 and state = 11.0/3.0, so that state = A/B as doubles. The real
e^(-B*dt) lies strictly between two neighbouring doubles, and for each of the four
doubles nearest to it as the value of `exp`, the result differs from state = A/B: it is
above max(state, A/B) for the first three and below min(state, A/B) for the fourth. -/
theorem integrate_between_fails_binary64 :
    ((3243821124132355 / 2 ^ 52 : ℚ) : ℝ) < Real.exp (-(3 * (7 / 64))) ∧
    Real.exp (-(3 * (7 / 64))) < ((6487642248264711 / 2 ^ 53 : ℚ) : ℝ) ∧
    (6487642248264711 / 2 ^ 53 : ℚ) - 3243821124132355 / 2 ^ 52 = 1 / 2 ^ 53 ∧
    (3 : ℚ) > EPSILON64 ∧
    max (roundBinary64 (11 / 3)) (roundBinary64 (11 / 3))
      < integrateBinary64 (fun _ => 6487642248264709 / 2 ^ 53) (roundBinary64 (11 / 3)) (7 / 64) 11 3 ∧
    max (roundBinary64 (11 / 3)) (roundBinary64 (11 / 3))
      < integrateBinary64 (fun _ => 3243821124132355 / 2 ^ 52) (roundBinary64 (11 / 3)) (7 / 64) 11 3 ∧
    max (roundBinary64 (11 / 3)) (roundBinary64 (11 / 3))
      < integrateBinary64 (fun _ => 6487642248264711 / 2 ^ 53) (roundBinary64 (11 / 3)) (7 / 64) 11 3 ∧
    integrateBinary64 (fun _ => 810955281033089 / 2 ^ 50) (roundBinary64 (11 / 3)) (7 / 64) 11 3
      < min (roundBinary64 (11 / 3)) (roundBinary64 (11 / 3)) := by
  have hb := exp_neg_21_64_bracket
  have harg : (-(3 * (7 / 64)) : ℝ) = -(21 / 64) := by norm_num
  rw [harg]
  refine ⟨hb.1, hb.2, by norm_num, three_gt_EPSILON64, ?_, ?_, ?_, ?_⟩
  · rw [roundBinary64_11_3, max_self, integrateBinary64_tick_below]
    norm_num
  · rw [roundBinary64_11_3, max_self, integrateBinary64_tick_lower]
    norm_num
  · rw [roundBinary64_11_3, max_self, integrateBinary64_tick_upper]
    norm_num
  · rw [roundBinary64_11_3, min_self, integrateBinary64_tick_above]
    norm_num

/-- C17 fails as stated for the `double` the code returns, on the Euler branch (B = 0,
on which `exp` is not called): with state = 1, A = 1 and dt1 = dt2 = 3/2^55, two ticks
give 1, while one tick of dt1 + dt2 = 3/2^54 gives 1 + 2^-52. -/
theorem integrate_step_composition_fails_binary64 :
    (0 : ℚ) ≤ EPSILON64 ∧
    integrateBinary64 (fun _ => 1) (integrateBinary64 (fun _ => 1) 1 (3 / 2 ^ 55) 1 0)
      (3 / 2 ^ 55) 1 0 = 1 ∧
    roundBinary64 (3 / 2 ^ 55 + 3 / 2 ^ 55) = 3 / 2 ^ 54 ∧
    integrateBinary64 (fun _ => 1) 1 (3 / 2 ^ 54) 1 0 = 1 + 1 / 2 ^ 52 := by
  have ha : roundBinary64 (1 * (3 / 2 ^ 55)) = 3 / 2 ^ 55 := by
    rw [roundBinary64_of_near (1 * (3 / 2 ^ 55)) (-54) (6755399441055744)
      (by norm_num [abs_of_pos]) (by norm_num [abs_of_pos]) (by rw [abs_lt]; norm_num)]
    norm_num
  have hs : roundBinary64 (1 + 3 / 2 ^ 55) = 1 := by
    rw [roundBinary64_of_near (1 + 3 / 2 ^ 55) (0) (4503599627370496)
      (by norm_num [abs_of_pos]) (by norm_num [abs_of_pos]) (by rw [abs_lt]; norm_num)]
    norm_num
  have hd : roundBinary64 (3 / 2 ^ 55 + 3 / 2 ^ 55) = 3 / 2 ^ 54 := by
    rw [roundBinary64_of_near (3 / 2 ^ 55 + 3 / 2 ^ 55) (-53) (6755399441055744)
      (by norm_num [abs_of_pos]) (by norm_num [abs_of_pos]) (by rw [abs_lt]; norm_num)]
    norm_num
  have hb : roundBinary64 (1 * (3 / 2 ^ 54)) = 3 / 2 ^ 54 := by
    rw [roundBinary64_of_near (1 * (3 / 2 ^ 54)) (-53) (6755399441055744)
      (by norm_num [abs_of_pos]) (by norm_num [abs_of_pos]) (by rw [abs_lt]; norm_num)]
    norm_num
  have ht : roundBinary64 (1 + 3 / 2 ^ 54) = 1 + 1 / 2 ^ 52 := by
    rw [roundBinary64_of_near (1 + 3 / 2 ^ 54) (0) (4503599627370497)
      (by norm_num [abs_of_pos]) (by norm_num [abs_of_pos]) (by rw [abs_lt]; norm_num)]
    norm_num
  have hone : integrateBinary64 (fun _ => 1) 1 (3 / 2 ^ 55) 1 0 = 1 :=
    integrateBinary64_euler_branch _ _ _ _ _ _ _ zero_le_EPSILON64 ha hs
  refine ⟨zero_le_EPSILON64, ?_, hd, ?_⟩
  · rw [hone]
    exact hone
  · exact integrateBinary64_euler_branch _ _ _ _ _ _ _ zero_le_EPSILON64 hb ht

end HHChannelBase

/-! ## Mesh junctions: claims -/

namespace ChemMesh

section MeshClaims

variable {α : Type}

theorem flipRet_eq_map (ret : List (VoxelJunction α)) :
    flipRet ret
      = ret.map (fun j => { first := j.second, second := j.first, diffScale := j.diffScale }) := by
  induction ret with
  | nil => rfl
  | cons j rest ih => simp [flipRet, ih]

/-- C12: junction building is directional: `A.buildJunction(B, ret)` runs
`A.matchMeshEntries(B, ret)` and then `A.extendStencil(B, ret)` on the matched junctions,
and nothing else; B is returned unchanged (so no call reaches B and its stencil is as
before). With a single matched pair (entryA, entryB, coefficient), e.g. (2, 0, 5.0), A
gains exactly that one neighbour entry for the index entryA. -/
theorem buildJunction_directional
    (matcher : ChemMesh α → ChemMesh α → List (VoxelJunction α) → List (VoxelJunction α))
    (A B : ChemMesh α) (ret : List (VoxelJunction α)) :
    (buildJunction matcher A B ret).2.1 = B ∧
    (buildJunction matcher A B ret).2.2 = matcher A B ret ∧
    (buildJunction matcher A B ret).1.calls
      = A.calls ++ [MeshCall.matchMeshEntries, MeshCall.extendStencil (matcher A B ret)] ∧
    (buildJunction matcher A B ret).1.stencil
      = (matcher A B ret).foldl addNeighbour A.stencil ∧
    (∀ (entryA entryB : Nat) (coefficient : α),
      matcher A B ret = [{ first := entryA, second := entryB, diffScale := coefficient }] →
      (buildJunction matcher A B ret).1.stencil entryA
        = A.stencil entryA ++ [(entryB, coefficient)] ∧
      ∀ i, i ≠ entryA → (buildJunction matcher A B ret).1.stencil i = A.stencil i) := by
  refine ⟨rfl, rfl, ?_, rfl, ?_⟩
  · simp [buildJunction, matchMeshEntries, extendStencil]
  · intro entryA entryB coefficient hm
    constructor
    · simp [buildJunction, matchMeshEntries, extendStencil, hm, addNeighbour]
    · intro i hi
      simp [buildJunction, matchMeshEntries, extendStencil, hm, addNeighbour, hi]

/-- Witness for C12: two meshes of three entries in a row, matched at the single pair
(entryA = 2, entryB = 0, coefficient 5). -/
theorem buildJunction_directional_witness :
    (buildJunction (fun _ _ _ => [{ first := 2, second := 0, diffScale := (5 : ℚ) }])
        { size_ := 3, method_ := "", calls := [],
          stencil := fun i => if i = 0 then [(1, 1)] else if i = 1 then [(0, 1), (2, 1)]
            else if i = 2 then [(1, 1)] else [] }
        { size_ := 3, method_ := "", calls := [],
          stencil := fun i => if i = 0 then [(1, 1)] else if i = 1 then [(0, 1), (2, 1)]
            else if i = 2 then [(1, 1)] else [] }
        []).1.stencil 2 = [(1, 1), (0, 5)] := by
  have h := (buildJunction_directional
    (fun _ _ _ => [{ first := 2, second := 0, diffScale := (5 : ℚ) }])
    { size_ := 3, method_ := "", calls := [],
      stencil := fun i => if i = 0 then [(1, 1)] else if i = 1 then [(0, 1), (2, 1)]
        else if i = 2 then [(1, 1)] else [] }
    { size_ := 3, method_ := "", calls := [],
      stencil := fun i => if i = 0 then [(1, 1)] else if i = 1 then [(0, 1), (2, 1)]
        else if i = 2 then [(1, 1)] else [] }
    []).2.2.2.2 2 0 5 rfl
  rw [h.1]
  simp

/-- C18: `flipRet` only swaps the two voxel indices and is an involution: it keeps the
length and the order of the list and every coupling coefficient, exchanges `first` and
`second` of every junction, and applied twice it gives back the original list. -/
theorem flipRet_involution (ret : List (VoxelJunction α)) :
    (flipRet ret).length = ret.length ∧
    flipRet ret
      = ret.map (fun j => { first := j.second, second := j.first, diffScale := j.diffScale }) ∧
    (flipRet ret).map (fun j => j.diffScale) = ret.map (fun j => j.diffScale) ∧
    (flipRet ret).map (fun j => j.first) = ret.map (fun j => j.second) ∧
    (flipRet ret).map (fun j => j.second) = ret.map (fun j => j.first) ∧
    flipRet (flipRet ret) = ret := by
  refine ⟨?_, flipRet_eq_map ret, ?_, ?_, ?_, ?_⟩
  · simp [flipRet_eq_map]
  · simp [flipRet_eq_map]
  · simp [flipRet_eq_map]
  · simp [flipRet_eq_map]
  · rw [flipRet_eq_map, flipRet_eq_map, List.map_map]
    conv_rhs => rw [← List.map_id ret]
    apply List.map_congr_left
    intro j _
    rfl

end MeshClaims

end ChemMesh
